import Mathlib

/-!
Shallow embedding of the duplicate-file finder in src/findclash.py and proofs
of the specification claims about it.

Python values of type str and bytes are both used as dictionary keys by the
program (bytes in exact mode, str in fuzzy mode), so hash values are modelled
by the sum type PyStr.  Python's insertion-ordered dict is modelled by an
association list.  Machine-level byte values are plain Nat with explicit
bounds; Python's unbounded int is Nat (all integers handled by the program
are nonnegative) except for the tolerance parameter, which the CLI can set
to -1 and which is therefore an Int.
-/

set_option maxRecDepth 100000

namespace FindClash

/-- Python value usable as a hash digest: either a bytes object (a list of
byte values) or a str. -/
inductive PyStr where
  | bytes (data : List Nat) : PyStr
  | str (s : String) : PyStr
deriving DecidableEq, Repr

/-- Code-point view of a PyStr, as Python int(x, 16) sees it: for a str the
characters, for bytes the raw byte values (interpreted as ASCII). -/
def PyStr.codes : PyStr → List Nat
  | .bytes data => data
  | .str s => s.data.map Char.toNat

/-- Value of one hexadecimal digit character (by code point), as accepted by
Python int(_, 16): 0-9, a-f, A-F. -/
def hexDigitVal (c : Nat) : Option Nat :=
  if 48 ≤ c ∧ c ≤ 57 then some (c - 48)
  else if 97 ≤ c ∧ c ≤ 102 then some (c - 87)
  else if 65 ≤ c ∧ c ≤ 70 then some (c - 55)
  else none

/-- Python int(x, 16) on a plain string of hex digits: none models the
ValueError raised on an empty string or a non-hex character.  (The program
only ever parses digest strings, which carry no sign, whitespace or 0x
marker, so those Python frills are not modelled.) -/
def pyIntHex (codes : List Nat) : Option Nat :=
  if codes = [] then none
  else codes.foldl
    (fun acc c =>
      match acc, hexDigitVal c with
      | some a, some d => some (a * 16 + d)
      | _, _ => none)
    (some 0)

/-- Bit-counting loop of hamming: while diff > 0: ret += diff & 1; diff >>= 1.
The first argument is fuel; the loop halves diff each pass, so fuel = diff
bounds the iteration count and popCount below runs the loop to completion. -/
def popCountAux : Nat → Nat → Nat
  | 0, _ => 0
  | fuel + 1, n => if n = 0 then 0 else n % 2 + popCountAux fuel (n / 2)

/-- Number of set bits of n, as computed by the while loop in hamming. -/
def popCount (n : Nat) : Nat := popCountAux n n

/-- hamming from src/findclash.py: parse both arguments with int(_, 16),
xor, count set bits.  none models the ValueError when either argument fails
to parse. -/
def hamming (x y : PyStr) : Option Nat :=
  match pyIntHex x.codes, pyIntHex y.codes with
  | some a, some b => some (popCount (a ^^^ b))
  | _, _ => none

/-- Lowercase hex digit character for a value below 16. -/
def hexChar (n : Nat) : Char :=
  if n < 10 then Char.ofNat (48 + n) else Char.ofNat (87 + n)

/-- Digits of n in base 16, most significant first, empty for 0.  The first
argument is fuel; n/16 < n keeps fuel = n sufficient. -/
def natToHexAux : Nat → Nat → List Char
  | 0, _ => []
  | fuel + 1, n => if n = 0 then [] else natToHexAux fuel (n / 16) ++ [hexChar (n % 16)]

/-- Rendering of n by Python "%x": lowercase hex, "0" for zero. -/
def natToHex (n : Nat) : String :=
  if n = 0 then "0" else String.mk (natToHexAux n n)

/-- Rendering of n by Python "%0*x" with the given minimum width: the hex
digits of n left-padded with zeros to at least width characters (never
truncated). -/
def hexPad (width n : Nat) : String :=
  String.mk (List.replicate (width - (natToHex n).length) '0') ++ natToHex n

/-- Index clamping of Python slice bounds: a negative index counts from the
end, a nonnegative one is capped at the length. -/
def sliceIdx (len : Nat) (i : Int) : Nat :=
  if i < 0 then ((len : Int) + i).toNat else min i.toNat len

/-- Python list slice l[a:b]. -/
def pySlice (l : List Nat) (a b : Int) : List Nat :=
  (l.take (sliceIdx l.length b)).drop (sliceIdx l.length a)

/-- Python sum(l[a:b]), the only use the program makes of slices. -/
def sliceSum (l : List Nat) (a b : Int) : Nat := (pySlice l a b).sum

/-- Python range(0, stop, step) for step > 0 (the program never calls it with
step = 0, which would raise ValueError; that case is mapped to []). -/
def pyRange0 (stop step : Nat) : List Nat :=
  if step = 0 then [] else (List.range ((stop + step - 1) / step)).map (fun i => i * step)

/-- Observable behaviour of a decoded PIL image, the two codec calls the
program makes: resizeL w h is image.resize((w, h)).convert('L').tobytes()
(one luminance byte per pixel, row-major, length w*h with every byte < 256 —
guaranteed by the codec, stated as a hypothesis where needed), and histogram
is image.histogram() (for an RGB image a list of 3*256 bin counts). -/
structure PILImage where
  resizeL : Nat → Nat → List Nat
  histogram : List Nat

/-- External world the program reads: file contents as bytes for open/read,
and the result of PIL.Image.open, where none models the OSError raised on a
file that does not decode as an image. -/
structure Filesystem where
  contents : String → List Nat
  image : String → Option PILImage

/-- Row value of the difference hash: the inner loop of image_hash.
For i in range(width-1): total <<= 1; total += (shape[c+i] > shape[c+i+1]).
List indexing uses getD: the codec guarantees shape has width*height bytes,
so all accesses made by the program are in bounds. -/
def rowValue (shape : List Nat) (column width : Nat) : Nat :=
  (List.range (width - 1)).foldl
    (fun total i =>
      total * 2 + (if shape.getD (column + i) 0 > shape.getD (column + i + 1) 0 then 1 else 0))
    0

/-- Structural part of image_hash: for column in range(0, width*height, width)
append the row value rendered as zero-padded hex of width bytes_per_row*2. -/
def structuralDigest (shape : List Nat) (width height bytes_per_row : Nat) : String :=
  (pyRange0 (width * height) width).foldl
    (fun digest column => digest ++ hexPad (bytes_per_row * 2) (rowValue shape column width))
    ""

/-- Inner while loop of the colour component of image_hash:
while start > offset: next_total = sum(histogram[start:start+step]);
ret += total > next_total; ret <<= 1; total = next_total; start -= step.
Returns (ret, start, total).  The first explicit argument is fuel; each pass
lowers start by step, so for step ≥ 1 (always true in the program, where
step = 256 // (bits_per_color+1) with bits_per_color = 8) calling it with
fuel = (start - offset).toNat runs the loop to completion.  (For step = 0
Python would loop forever; the fuel then runs out instead.) -/
def colorLoop (hist : List Nat) (offset : Int) (step : Nat) :
    Nat → Int → Nat → Nat → Nat × Int × Nat
  | 0, start, total, ret => (ret, start, total)
  | fuel + 1, start, total, ret =>
    if offset < start then
      colorLoop hist offset step fuel (start - step)
        (sliceSum hist start (start + step))
        ((ret + if sliceSum hist start (start + step) < total then 1 else 0) * 2)
    else (ret, start, total)

/-- One iteration of the colour loop over the channel offsets:
ret <<= 1; start = 256 - step//2 + offset; total = sum(histogram[start:offset+256]);
the while loop; then ret += total > sum(histogram[offset:start+step]). -/
def colorChannel (hist : List Nat) (offset : Nat) (step : Nat) (ret : Nat) : Nat :=
  let start : Int := 256 - (step / 2 : Nat) + (offset : Int)
  let total := sliceSum hist start ((offset : Int) + 256)
  let r := colorLoop hist (offset : Int) step ((start - (offset : Int)).toNat) start total (ret * 2)
  r.1 + if r.2.2 > sliceSum hist (offset : Int) (r.2.1 + step) then 1 else 0

/-- Colour component value of image_hash: step = 256 // (bits_per_color + 1),
channels at offset in range(0, len(histogram), len(histogram)//3). -/
def colorValue (hist : List Nat) (bits_per_color : Nat) : Nat :=
  (pyRange0 hist.length (hist.length / 3)).foldl
    (fun ret offset => colorChannel hist offset (256 / (bits_per_color + 1)) ret)
    0

/-- image_hash from src/findclash.py.  Returns none exactly when Image.open
fails (OSError).  The digest is the structural difference hash, followed,
when bits_per_color is nonzero, by the colour value rendered as zero-padded
hex of minimum width (bits_per_color*3)//8. -/
def image_hash (fs : Filesystem) (filename : String)
    (bytes_per_row height bits_per_color : Nat) : Option PyStr :=
  let width := bytes_per_row * 8 + 1
  match fs.image filename with
  | none => none
  | some image =>
    let shape := image.resizeL width height
    let digest := structuralDigest shape width height bytes_per_row
    if bits_per_color = 0 then some (PyStr.str digest)
    else some (PyStr.str (digest ++ hexPad ((bits_per_color * 3) / 8) (colorValue image.histogram bits_per_color)))

/-! SHA-1 (FIPS 180-4), the hash behind hashlib.sha1 used by sha1sum.
Words are Nat reduced mod 2^32.  The final .digest() call of the Python code
returns the raw 20 digest bytes (not a hex rendering), modelled by the byte
list sha1 returns. -/

/-- Left rotation of a 32-bit word. -/
def rotl (n w : Nat) : Nat := ((w <<< n) ||| (w >>> (32 - n))) % 4294967296

/-- Big-endian bytes of a 32-bit word. -/
def wordBytes (w : Nat) : List Nat :=
  [w / 16777216 % 256, w / 65536 % 256, w / 256 % 256, w % 256]

/-- Big-endian 8-byte rendering of a 64-bit length field. -/
def be64 (n : Nat) : List Nat :=
  [n / 72057594037927936 % 256, n / 281474976710656 % 256, n / 1099511627776 % 256,
   n / 4294967296 % 256, n / 16777216 % 256, n / 65536 % 256, n / 256 % 256, n % 256]

/-- SHA-1 message padding: append 0x80, zero bytes up to 56 mod 64, then the
bit length as 8 big-endian bytes. -/
def sha1Pad (msg : List Nat) : List Nat :=
  msg ++ [128] ++ List.replicate ((120 - (msg.length + 1) % 64) % 64) 0
      ++ be64 (msg.length * 8)

/-- Split a byte list into 64-byte chunks.  Fuel-driven; fuel = list length
is enough since every step removes at least one element. -/
def chunksAux : Nat → List Nat → List (List Nat)
  | _, [] => []
  | 0, _ :: _ => []
  | fuel + 1, l => l.take 64 :: chunksAux fuel (l.drop 64)

/-- SHA-1 round constant. -/
def sha1K (t : Nat) : Nat :=
  if t < 20 then 1518500249
  else if t < 40 then 1859775393
  else if t < 60 then 2400959708
  else 3395469782

/-- SHA-1 round function (Ch, Parity, Maj, Parity). -/
def sha1F (t b c d : Nat) : Nat :=
  if t < 20 then (b &&& c) ||| ((b ^^^ 4294967295) &&& d)
  else if t < 40 then b ^^^ c ^^^ d
  else if t < 60 then (b &&& c) ||| (b &&& d) ||| (c &&& d)
  else b ^^^ c ^^^ d

/-- Message schedule: 16 big-endian words of the block, extended to 80 with
w[t] = rotl1 (w[t-3] xor w[t-8] xor w[t-14] xor w[t-16]). -/
def sha1Schedule (block : List Nat) : List Nat :=
  let w16 := (List.range 16).map (fun i =>
    ((block.getD (4 * i) 0 * 256 + block.getD (4 * i + 1) 0) * 256
      + block.getD (4 * i + 2) 0) * 256 + block.getD (4 * i + 3) 0)
  (List.range 64).foldl
    (fun ws _ =>
      ws ++ [rotl 1 (ws.getD (ws.length - 3) 0 ^^^ ws.getD (ws.length - 8) 0
        ^^^ ws.getD (ws.length - 14) 0 ^^^ ws.getD (ws.length - 16) 0)])
    w16

/-- SHA-1 compression of one 64-byte block into the running state. -/
def sha1Compress (h : Nat × Nat × Nat × Nat × Nat) (block : List Nat) :
    Nat × Nat × Nat × Nat × Nat :=
  let fin := (sha1Schedule block).enum.foldl
    (fun st p =>
      let temp := (rotl 5 st.1 + sha1F p.1 st.2.1 st.2.2.1 st.2.2.2.1 + st.2.2.2.2
        + sha1K p.1 + p.2) % 4294967296
      (temp, st.1, rotl 30 st.2.1, st.2.2.1, st.2.2.2.1))
    h
  ((h.1 + fin.1) % 4294967296, (h.2.1 + fin.2.1) % 4294967296,
   (h.2.2.1 + fin.2.2.1) % 4294967296, (h.2.2.2.1 + fin.2.2.2.1) % 4294967296,
   (h.2.2.2.2 + fin.2.2.2.2) % 4294967296)

/-- SHA-1 digest of a byte sequence: the raw 20 bytes of hashlib's .digest(). -/
def sha1 (msg : List Nat) : List Nat :=
  let padded := sha1Pad msg
  let fin := (chunksAux padded.length padded).foldl sha1Compress
    (1732584193, 4023233417, 2562383102, 271733878, 3285377520)
  wordBytes fin.1 ++ wordBytes fin.2.1 ++ wordBytes fin.2.2.1
    ++ wordBytes fin.2.2.2.1 ++ wordBytes fin.2.2.2.2

/-- sha1sum from src/findclash.py: read the whole file and return
sha1(contents).digest() — the raw digest bytes. -/
def sha1sum (fs : Filesystem) (filename : String) : PyStr :=
  PyStr.bytes (sha1 (fs.contents filename))

/-! The clusterer.  Python's insertion-ordered dict {digest: [filenames]} is
an association list; iteration in insertion order is list order. -/

/-- The result mapping: representative digest to list of files, in insertion
order. -/
abbrev HashDict := List (PyStr × List String)

/-- Python locations.get(k) / locations[k]: the value stored at key k. -/
def dictGet : HashDict → PyStr → Option (List String)
  | [], _ => none
  | kv :: rest, k => if kv.1 = k then some kv.2 else dictGet rest k

/-- Python locations[k] = v: replace the value at an existing key in place,
or append a new entry at the end (insertion order). -/
def dictSet : HashDict → PyStr → List String → HashDict
  | [], k, v => [(k, v)]
  | kv :: rest, k, v => if kv.1 = k then (k, v) :: rest else kv :: dictSet rest k v

/-- Python locations[k].append(f): append f to the bucket at key k, keeping
its position (no effect when k is absent, which the program never does). -/
def dictAppend : HashDict → PyStr → String → HashDict
  | [], _, _ => []
  | kv :: rest, k, f =>
    if kv.1 = k then (kv.1, kv.2 ++ [f]) :: rest else kv :: dictAppend rest k f

/-- The scan loop of update_hashdict for tolerance ≠ 0: walk the keys in
insertion order; some (some k) is the first key with hamming(k, digest) <
tolerance, some none means the loop fell through, none models the ValueError
hamming raises on an unparsable key or digest. -/
def firstWithin (digest : PyStr) (tolerance : Int) : HashDict → Option (Option PyStr)
  | [] => some none
  | kv :: rest =>
    match hamming kv.1 digest with
    | none => none
    | some m => if (m : Int) < tolerance then some (some kv.1) else firstWithin digest tolerance rest

/-- update_hashdict from src/findclash.py.  Outer none models an uncaught
exception; some returns the updated mapping (unchanged when the hasher
produced no digest). -/
def update_hashdict (hash_func : String → Option PyStr) (filename : String)
    (locations : HashDict) (tolerance : Int) : Option HashDict :=
  match hash_func filename with
  | none => some locations
  | some digest =>
    if tolerance = 0 then
      some (match dictGet locations digest with
        | none => dictSet locations digest [filename]
        | some _ => dictAppend locations digest filename)
    else
      match firstWithin digest tolerance locations with
      | none => none
      | some (some key) => some (dictAppend locations key filename)
      | some none => some (dictSet locations digest [filename])

/-- The per-file driver loop of findclash: update_hashdict on each file in
discovery order, threading the mapping; an exception aborts the run. -/
def run_updates (hash_func : String → Option PyStr) (tolerance : Int) :
    List String → HashDict → Option HashDict
  | [], locations => some locations
  | f :: rest, locations =>
    match update_hashdict hash_func f locations tolerance with
    | none => none
    | some locations => run_updates hash_func tolerance rest locations

/-- findclash from src/findclash.py, with the directory walk abstracted to
the ordered list of regular files it discovers.  Hasher selection: sha1sum
unless tolerance > 0, in which case image_hash — with height 5 and
bits_per_color 8 when colors is set, else the defaults (bytes_per_row 1,
height 8, bits_per_color 0); a nonpositive tolerance is replaced by 0. -/
def findclash (fs : Filesystem) (files : List String) (tolerance : Int) (colors : Bool) :
    Option HashDict :=
  let func : String → Option PyStr :=
    if tolerance > 0 then
      if colors then fun f => image_hash fs f 1 5 8
      else fun f => image_hash fs f 1 8 0
    else fun f => some (sha1sum fs f)
  let tol : Int := if tolerance > 0 then tolerance else 0
  run_updates func tol files []

/-! Basic lemmas about hamming. -/

/-- A nonempty string of hexadecimal digit characters, the format of every
digest the fuzzy hasher produces. -/
def IsHexStr (s : String) : Prop :=
  s.data ≠ [] ∧ ∀ c ∈ s.data, (hexDigitVal c.toNat).isSome

instance (s : String) : Decidable (IsHexStr s) := by
  unfold IsHexStr; infer_instance

theorem pyIntHex_foldl_isSome (codes : List Nat)
    (h : ∀ c ∈ codes, (hexDigitVal c).isSome) (acc : Nat) :
    (codes.foldl
      (fun acc c =>
        match acc, hexDigitVal c with
        | some a, some d => some (a * 16 + d)
        | _, _ => none)
      (some acc)).isSome := by
  induction codes generalizing acc with
  | nil => simp
  | cons c cs ih =>
    obtain ⟨d, hd⟩ := Option.isSome_iff_exists.mp (h c (by simp))
    simpa [hd] using ih (fun c hc => h c (by simp [hc])) (acc * 16 + d)

theorem pyIntHex_isSome (codes : List Nat) (hne : codes ≠ [])
    (h : ∀ c ∈ codes, (hexDigitVal c).isSome) : (pyIntHex codes).isSome := by
  unfold pyIntHex
  simp only [hne, if_false]
  exact pyIntHex_foldl_isSome codes h 0

/-- hamming is symmetric: xor is commutative. -/
theorem hamming_comm (x y : PyStr) : hamming x y = hamming y x := by
  unfold hamming
  cases pyIntHex x.codes <;> cases pyIntHex y.codes <;> simp [Nat.xor_comm]

/-- hamming of a parsable value with itself is zero. -/
theorem hamming_self (x : PyStr) (h : (pyIntHex x.codes).isSome) :
    hamming x x = some 0 := by
  obtain ⟨v, hv⟩ := Option.isSome_iff_exists.mp h
  simp [hamming, hv, popCount, popCountAux]

/-- A defined hamming distance means both sides parse. -/
theorem hamming_isSome_iff (x y : PyStr) :
    (hamming x y).isSome ↔ (pyIntHex x.codes).isSome ∧ (pyIntHex y.codes).isSome := by
  unfold hamming
  cases pyIntHex x.codes <;> cases pyIntHex y.codes <;> simp

/-- C9: for all equal-length hex strings a and b, the Hamming distance
function of the program — parse both strings as big integers with int(_,16),
xor them and count set bits — is symmetric, hamming(a,b) = hamming(b,a), and
reflexively zero, hamming(a,a) = 0. -/
theorem C9_hamming_symm_refl (a b : String) (ha : IsHexStr a) (hb : IsHexStr b)
    (hlen : a.length = b.length) :
    hamming (PyStr.str a) (PyStr.str b) = hamming (PyStr.str b) (PyStr.str a)
    ∧ hamming (PyStr.str a) (PyStr.str a) = some 0 := by
  refine ⟨hamming_comm _ _, hamming_self _ ?_⟩
  refine pyIntHex_isSome _ (by simpa [PyStr.codes] using ha.1) ?_
  intro c hc
  simp only [PyStr.codes, List.mem_map] at hc
  obtain ⟨ch, hch, rfl⟩ := hc
  exact ha.2 ch hch

/-- Witness for C9 at the concrete equal-length hex strings "a1" and "0f". -/
theorem C9_witness :
    hamming (PyStr.str "a1") (PyStr.str "0f") = hamming (PyStr.str "0f") (PyStr.str "a1")
    ∧ hamming (PyStr.str "a1") (PyStr.str "a1") = some 0 :=
  C9_hamming_symm_refl "a1" "0f" (by decide) (by decide) (by decide)

/-! Error handling of undecodable files, and hasher selection in findclash. -/

/-- C7: in fuzzy mode, for a file that fails to decode as an image, the
hasher returns none (the no-fingerprint signal) rather than raising, the
clustering update returns the mapping unchanged — no bucket is created or
modified — and the driver loop goes on to process the remaining files. -/
theorem C7_decode_failure_skips (fs : Filesystem) (f : String)
    (hfail : fs.image f = none) (bpr hgt bits : Nat) (loc : HashDict)
    (tol : Int) (rest : List String) :
    image_hash fs f bpr hgt bits = none
    ∧ update_hashdict (fun g => image_hash fs g bpr hgt bits) f loc tol = some loc
    ∧ run_updates (fun g => image_hash fs g bpr hgt bits) tol (f :: rest) loc
        = run_updates (fun g => image_hash fs g bpr hgt bits) tol rest loc := by
  have h1 : image_hash fs f bpr hgt bits = none := by
    unfold image_hash
    rw [hfail]
  refine ⟨h1, ?_, ?_⟩
  · simp [update_hashdict, h1]
  · show (match update_hashdict (fun g => image_hash fs g bpr hgt bits) f loc tol with
      | none => none
      | some locations => run_updates (fun g => image_hash fs g bpr hgt bits) tol rest locations) = _
    simp [update_hashdict, h1]

/-- Witness for C7: a filesystem on which no file decodes, one pending file. -/
theorem C7_witness :
    image_hash ⟨fun _ => [], fun _ => none⟩ "bad" 1 8 0 = none
    ∧ update_hashdict (fun g => image_hash ⟨fun _ => [], fun _ => none⟩ g 1 8 0) "bad" [] 0 = some []
    ∧ run_updates (fun g => image_hash ⟨fun _ => [], fun _ => none⟩ g 1 8 0) 0 ["bad"] []
        = run_updates (fun g => image_hash ⟨fun _ => [], fun _ => none⟩ g 1 8 0) 0 [] [] :=
  C7_decode_failure_skips ⟨fun _ => [], fun _ => none⟩ "bad" rfl 1 8 0 [] 0 []

/-- C10: for every tolerance ≤ 0 handed to findclash (including the CLI
default -1 used when fuzzy mode is not requested), the run is exactly the
exact-mode run: tolerance is replaced by 0, the hasher is sha1sum, and the
result coincides with findclash at tolerance 0; image hashing is selected
only when tolerance > 0. -/
theorem C10_nonpositive_is_exact (fs : Filesystem) (files : List String)
    (tolerance : Int) (colors : Bool) (h : tolerance ≤ 0) :
    findclash fs files tolerance colors
      = run_updates (fun f => some (sha1sum fs f)) 0 files []
    ∧ findclash fs files tolerance colors = findclash fs files 0 false := by
  have hng : ¬ tolerance > 0 := by omega
  constructor
  · unfold findclash
    rw [if_neg hng, if_neg hng]
  · unfold findclash
    rw [if_neg hng, if_neg hng]
    norm_num

/-- Witness for C10 at the default tolerance -1 with colors requested. -/
theorem C10_witness :
    findclash ⟨fun _ => [], fun _ => none⟩ ["a"] (-1) true
      = run_updates (fun f => some (sha1sum ⟨fun _ => [], fun _ => none⟩ f)) 0 ["a"] []
    ∧ findclash ⟨fun _ => [], fun _ => none⟩ ["a"] (-1) true
      = findclash ⟨fun _ => [], fun _ => none⟩ ["a"] 0 false :=
  C10_nonpositive_is_exact ⟨fun _ => [], fun _ => none⟩ ["a"] (-1) true (by norm_num)

/-! Lemmas about the dict operations. -/

theorem dictGet_dictSet (d : HashDict) (k : PyStr) (v : List String) (q : PyStr) :
    dictGet (dictSet d k v) q = if k = q then some v else dictGet d q := by
  induction d with
  | nil => simp [dictSet, dictGet]
  | cons kv rest ih =>
    by_cases hk : kv.1 = k
    · by_cases hq : k = q
      · simp [dictSet, dictGet, hk, hq]
      · simp [dictSet, dictGet, hk, hq]
    · by_cases hkq : kv.1 = q
      · have hne : ¬ k = q := fun h => hk (hkq.trans h.symm)
        have hne2 : ¬ q = k := fun h => hne h.symm
        simp [dictSet, dictGet, hk, hkq, hne, hne2]
      · simp [dictSet, dictGet, hk, hkq, ih]

theorem dictGet_dictAppend (d : HashDict) (k : PyStr) (f : String) (q : PyStr) :
    dictGet (dictAppend d k f) q =
      if k = q then (dictGet d q).map (fun v => v ++ [f]) else dictGet d q := by
  induction d with
  | nil => simp [dictAppend, dictGet]
  | cons kv rest ih =>
    by_cases hk : kv.1 = k
    · by_cases hq : k = q
      · simp [dictAppend, dictGet, hk, hq]
      · have hne : ¬ kv.1 = q := fun h => hq ((hk.symm.trans h))
        simp [dictAppend, dictGet, hk, hq, hne]
    · by_cases hkq : kv.1 = q
      · have hne : ¬ k = q := fun h => hk (hkq.trans h.symm)
        have hne2 : ¬ q = k := fun h => hne h.symm
        simp [dictAppend, dictGet, hk, hkq, hne, hne2]
      · simp [dictAppend, dictGet, hk, hkq, ih]

theorem dictGet_some_mem (d : HashDict) (k : PyStr) (v : List String)
    (h : dictGet d k = some v) : (k, v) ∈ d := by
  induction d with
  | nil => simp [dictGet] at h
  | cons kv rest ih =>
    by_cases hk : kv.1 = k
    · simp [dictGet, hk] at h
      subst hk h
      simp
    · simp [dictGet, hk] at h
      simp [ih h]

theorem dictSet_eq_append (d : HashDict) (k : PyStr) (v : List String)
    (h : dictGet d k = none) : dictSet d k v = d ++ [(k, v)] := by
  induction d with
  | nil => simp [dictSet]
  | cons kv rest ih =>
    by_cases hk : kv.1 = k
    · simp [dictGet, hk] at h
    · simp [dictGet, hk] at h
      simp [dictSet, hk, ih h]

theorem mem_dictSet (d : HashDict) (k : PyStr) (v : List String) (kv' : PyStr × List String)
    (h : kv' ∈ dictSet d k v) : kv' ∈ d ∨ kv' = (k, v) := by
  induction d with
  | nil => simp [dictSet] at h; simp [h]
  | cons kv rest ih =>
    by_cases hk : kv.1 = k
    · simp [dictSet, hk] at h
      rcases h with h | h
      · right; simp [h]
      · left; simp [h]
    · simp [dictSet, hk] at h
      rcases h with h | h
      · left; simp [h]
      · rcases ih h with h' | h'
        · left; simp [h']
        · right; exact h'

theorem mem_dictAppend (d : HashDict) (k : PyStr) (f : String) (kv' : PyStr × List String)
    (h : kv' ∈ dictAppend d k f) :
    ∃ kv ∈ d, kv'.1 = kv.1 ∧ (kv'.2 = kv.2 ∨ (kv'.1 = k ∧ kv'.2 = kv.2 ++ [f])) := by
  induction d with
  | nil => simp [dictAppend] at h
  | cons kv rest ih =>
    by_cases hk : kv.1 = k
    · simp [dictAppend, hk] at h
      rcases h with h | h
      · exact ⟨kv, by simp, by simp [h, hk], Or.inr ⟨by simp [h], by simp [h]⟩⟩
      · exact ⟨kv', by simp [h], rfl, Or.inl rfl⟩
    · simp [dictAppend, hk] at h
      rcases h with h | h
      · exact ⟨kv', by simp [h], rfl, Or.inl rfl⟩
      · obtain ⟨kv0, hm, he⟩ := ih h
        exact ⟨kv0, by simp [hm], he⟩

/-! The fuzzy-mode update: claims C1 and C2. -/

/-- Boolean match test of the scan loop: hamming(k, digest) < tolerance,
false when hamming is undefined. -/
def hammingLtB (k digest : PyStr) (tolerance : Int) : Bool :=
  match hamming k digest with
  | some m => decide ((m : Int) < tolerance)
  | none => false

theorem firstWithin_eq_find? (digest : PyStr) (tol : Int) (loc : HashDict)
    (hk : ∀ kv ∈ loc, (hamming kv.1 digest).isSome) :
    firstWithin digest tol loc
      = some ((loc.find? (fun kv => hammingLtB kv.1 digest tol)).map Prod.fst) := by
  induction loc with
  | nil => simp [firstWithin]
  | cons kv rest ih =>
    obtain ⟨m, hm⟩ := Option.isSome_iff_exists.mp (hk kv (by simp))
    by_cases hlt : (m : Int) < tol
    · simp [firstWithin, hm, hlt, List.find?, hammingLtB]
    · simp [firstWithin, hm, hlt, List.find?, hammingLtB]
      exact ih (fun kv' h' => hk kv' (by simp [h']))

/-- C1: for a clustering update with tolerance > 0 on a file whose hash was
computed successfully (and whose existing keys are genuine hex digests, so
hamming is defined on them): the keys are scanned in the mapping's insertion
order, the file is appended to the bucket of the first key at Hamming
distance strictly below the tolerance — List.find? returns exactly that
first match, and no later key matters — and when no key is within the strict
bound a fresh bucket keyed by the file's own digest is appended at the end
with the file as sole member. -/
theorem C1_update_fuzzy_first_match (hf : String → Option PyStr) (fn : String)
    (loc : HashDict) (tol : Int) (digest : PyStr) (htol : 0 < tol)
    (hd : hf fn = some digest)
    (hk : ∀ kv ∈ loc, (hamming kv.1 digest).isSome) :
    update_hashdict hf fn loc tol =
      some (match loc.find? (fun kv => hammingLtB kv.1 digest tol) with
        | some kv => dictAppend loc kv.1 fn
        | none => loc ++ [(digest, [fn])]) := by
  have hne : ¬ tol = 0 := by omega
  unfold update_hashdict
  simp only [hd, if_neg hne, firstWithin_eq_find? digest tol loc hk]
  cases hfind : loc.find? (fun kv => hammingLtB kv.1 digest tol) with
  | some kv => simp
  | none =>
    simp only [Option.map_none]
    cases hq : dictGet loc digest with
    | none => simp [dictSet_eq_append loc digest [fn] hq]
    | some v =>
      exfalso
      have hmem := dictGet_some_mem loc digest v hq
      have hfalse := List.find?_eq_none.mp hfind _ hmem
      obtain ⟨m, hm⟩ := Option.isSome_iff_exists.mp (hk (digest, v) hmem)
      have hself : hamming digest digest = some 0 := by
        refine hamming_self digest ?_
        have := (hamming_isSome_iff digest digest).mp (by simp [hm])
        exact this.1
      rw [hself] at hm
      simp [hammingLtB, hself] at hfalse
      omega

/-- Witness for C1: tolerance 1, one existing bucket keyed "f" (distance 4
from the new digest "0"), so a new bucket is appended. -/
theorem C1_witness :
    update_hashdict (fun f => if f = "B" then some (PyStr.str "0") else none) "B"
        [(PyStr.str "f", ["A"])] 1 =
      some (match [(PyStr.str "f", ["A"])].find?
          (fun kv => hammingLtB kv.1 (PyStr.str "0") 1) with
        | some kv => dictAppend [(PyStr.str "f", ["A"])] kv.1 "B"
        | none => [(PyStr.str "f", ["A"])] ++ [(PyStr.str "0", ["B"])]) :=
  C1_update_fuzzy_first_match _ "B" [(PyStr.str "f", ["A"])] 1 (PyStr.str "0")
    (by norm_num) (by decide) (by decide)

/-- Hasher used by the C2 scenario: three files F1, F2, F3 with hex digests
"0", "1", "3", whose pairwise Hamming distances are 1, 1 and 2. -/
def hfC2 : String → Option PyStr := fun f =>
  if f = "F1" then some (PyStr.str "0")
  else if f = "F2" then some (PyStr.str "1")
  else if f = "F3" then some (PyStr.str "3")
  else none

/-- Counterexample to C2.  With tolerance 2 the digests "0", "1", "3" of
F1, F2, F3 satisfy dist(h1,h2) = 1 < 2, dist(h2,h3) = 1 < 2 and
dist(h1,h3) = 2 ≥ 2, yet clustering F1, F2, F3 in order does NOT produce a
single bucket keyed "0" holding all three files: membership is tested
against the bucket's representative key only, so F3 (distance 2 from the
representative "0") opens its own bucket. -/
theorem C2_counterexample :
    run_updates hfC2 2 ["F1", "F2", "F3"] []
      ≠ some [(PyStr.str "0", ["F1", "F2", "F3"])] := by decide

/-- C2 amended: files F1, F2, F3 with hashes h1, h2, h3 such that
dist(h1,h2) < tolerance, dist(h2,h3) < tolerance and dist(h1,h3) ≥ tolerance,
clustered in the order F1, F2, F3 with that tolerance > 0, produce TWO
buckets: one keyed h1 holding F1 and F2, and one keyed h3 holding F3 alone —
F3 is compared against the representative h1 only, never against the
later-added member F2, so no transitive merge happens. -/
theorem C2_amended (hf : String → Option PyStr) (F1 F2 F3 : String)
    (h1 h2 h3 : PyStr) (tol : Int) (m12 m23 m13 : Nat)
    (hF1 : hf F1 = some h1) (hF2 : hf F2 = some h2) (hF3 : hf F3 = some h3)
    (htol : 0 < tol)
    (d12 : hamming h1 h2 = some m12) (hlt12 : (m12 : Int) < tol)
    (d23 : hamming h2 h3 = some m23) (hlt23 : (m23 : Int) < tol)
    (d13 : hamming h1 h3 = some m13) (hge13 : ¬ (m13 : Int) < tol) :
    run_updates hf tol [F1, F2, F3] [] = some [(h1, [F1, F2]), (h3, [F3])] := by
  have hne : ¬ tol = 0 := by omega
  have h13 : ¬ h1 = h3 := by
    intro h
    have hp : (pyIntHex h1.codes).isSome := ((hamming_isSome_iff h1 h2).mp (by simp [d12])).1
    have hz : hamming h1 h3 = some 0 := h ▸ hamming_self h1 hp
    rw [d13] at hz
    have hm : m13 = 0 := by injection hz
    apply hge13
    rw [hm]
    exact_mod_cast htol
  have u1 : update_hashdict hf F1 [] tol = some [(h1, [F1])] := by
    simp [update_hashdict, hF1, if_neg hne, firstWithin, dictSet]
  have u2 : update_hashdict hf F2 [(h1, [F1])] tol = some [(h1, [F1, F2])] := by
    simp [update_hashdict, hF2, if_neg hne, firstWithin, d12, hlt12, dictAppend]
  have u3 : update_hashdict hf F3 [(h1, [F1, F2])] tol
      = some [(h1, [F1, F2]), (h3, [F3])] := by
    simp [update_hashdict, hF3, if_neg hne, firstWithin, d13, hge13, dictSet, h13]
  simp [run_updates, u1, u2, u3]

/-- Witness for C2 amended at the concrete scenario: digests "0", "1", "3",
tolerance 2. -/
theorem C2_witness :
    run_updates hfC2 2 ["F1", "F2", "F3"] []
      = some [(PyStr.str "0", ["F1", "F2"]), (PyStr.str "3", ["F3"])] :=
  C2_amended hfC2 "F1" "F2" "F3" (PyStr.str "0") (PyStr.str "1") (PyStr.str "3")
    2 1 1 2 (by decide) (by decide) (by decide) (by norm_num)
    (by decide) (by norm_num) (by decide) (by norm_num) (by decide) (by norm_num)

/-! Claim C8: the bucket invariant. -/

/-- A member file of a bucket is accounted for: its hash was computed, and at
tolerance 0 it equals the bucket's representative key exactly, while at
nonzero tolerance its Hamming distance to the representative is within
(at most) the tolerance. -/
def MemberOk (hf : String → Option PyStr) (tol : Int) (k : PyStr) (f : String) : Prop :=
  ∃ d, hf f = some d ∧
    (if tol = 0 then d = k
     else ∃ m, hamming k d = some m ∧ (m : Int) ≤ tol)

/-- Invariant of the result mapping: every member of every bucket is within
tolerance of that bucket's representative key. -/
def HDInv (hf : String → Option PyStr) (tol : Int) (loc : HashDict) : Prop :=
  ∀ kv ∈ loc, ∀ f ∈ kv.2, MemberOk hf tol kv.1 f

theorem firstWithin_some_some (digest : PyStr) (tol : Int) (loc : HashDict) (key : PyStr)
    (h : firstWithin digest tol loc = some (some key)) :
    ∃ m, hamming key digest = some m ∧ (m : Int) < tol := by
  induction loc with
  | nil => simp [firstWithin] at h
  | cons kv rest ih =>
    unfold firstWithin at h
    cases hm : hamming kv.1 digest with
    | none => rw [hm] at h; exact absurd h (by simp)
    | some m =>
      rw [hm] at h
      simp only [] at h
      by_cases hlt : (m : Int) < tol
      · rw [if_pos hlt] at h
        have : kv.1 = key := by injection h with h1; injection h1
        exact ⟨m, this ▸ hm, hlt⟩
      · rw [if_neg hlt] at h
        exact ih h

/-- C8: the bucket invariant is preserved by every clustering update with a
nonnegative tolerance: after an update that did not raise, every member of
every bucket — including the file just added — has its hash within tolerance
of the bucket's representative key, and at tolerance 0 equal to the key
exactly; the check performed by the code compares against the representative
only, never pairwise between members, yet it maintains this invariant.  The
parse hypothesis applies only when the tolerance is nonzero (the fuzzy path,
whose image_hash digests are hex strings); exact mode (tolerance 0, raw
sha1sum byte digests) needs no parsing, since it never calls hamming. -/
theorem C8_invariant_preserved (hf : String → Option PyStr) (tol : Int)
    (htol : 0 ≤ tol)
    (hparse : ¬ tol = 0 → ∀ f d, hf f = some d → (pyIntHex d.codes).isSome)
    (f : String) (loc loc' : HashDict)
    (hinv : HDInv hf tol loc)
    (hupd : update_hashdict hf f loc tol = some loc') :
    HDInv hf tol loc' := by
  unfold update_hashdict at hupd
  cases hd : hf f with
  | none =>
    rw [hd] at hupd
    simp at hupd
    exact hupd ▸ hinv
  | some d =>
    rw [hd] at hupd
    simp only [] at hupd
    by_cases h0 : tol = 0
    · rw [if_pos h0] at hupd
      cases hq : dictGet loc d with
      | none =>
        rw [hq] at hupd
        simp at hupd
        subst hupd
        intro kv hkv f' hf'
        rcases mem_dictSet loc d [f] kv hkv with hin | hnew
        · exact hinv kv hin f' hf'
        · subst hnew
          simp at hf'
          subst hf'
          exact ⟨d, hd, by simp [h0]⟩
      | some v =>
        rw [hq] at hupd
        simp at hupd
        subst hupd
        intro kv hkv f' hf'
        obtain ⟨kv0, hin, hkey, hvals⟩ := mem_dictAppend loc d f kv hkv
        rcases hvals with hsame | ⟨hkeyd, happ⟩
        · exact hkey ▸ hinv kv0 hin f' (hsame ▸ hf')
        · rw [happ] at hf'
          rcases List.mem_append.mp hf' with hold | hnewf
          · exact hkey ▸ hinv kv0 hin f' hold
          · simp at hnewf
            subst hnewf
            exact ⟨d, hd, by simp [h0, hkeyd]⟩
    · rw [if_neg h0] at hupd
      cases hfw : firstWithin d tol loc with
      | none => rw [hfw] at hupd; exact absurd hupd (by simp)
      | some o =>
        rw [hfw] at hupd
        cases o with
        | some key =>
          simp at hupd
          subst hupd
          intro kv hkv f' hf'
          obtain ⟨kv0, hin, hkey, hvals⟩ := mem_dictAppend loc key f kv hkv
          rcases hvals with hsame | ⟨hkeyd, happ⟩
          · exact hkey ▸ hinv kv0 hin f' (hsame ▸ hf')
          · rw [happ] at hf'
            rcases List.mem_append.mp hf' with hold | hnewf
            · exact hkey ▸ hinv kv0 hin f' hold
            · simp at hnewf
              subst hnewf
              obtain ⟨m, hm, hlt⟩ := firstWithin_some_some d tol loc key hfw
              exact ⟨d, hd, by simp [h0]; exact ⟨m, hkeyd ▸ hm, le_of_lt hlt⟩⟩
        | none =>
          simp at hupd
          subst hupd
          intro kv hkv f' hf'
          rcases mem_dictSet loc d [f] kv hkv with hin | hnew
          · exact hinv kv hin f' hf'
          · subst hnew
            simp at hf'
            subst hf'
            refine ⟨d, hd, by simp [h0]; exact ⟨0, hamming_self d (hparse h0 _ d hd), htol⟩⟩

/-- Hasher for the C8 witness: files "A" and "B" with digests "0" and "1". -/
def hfC8 : String → Option PyStr := fun f =>
  if f = "A" then some (PyStr.str "0")
  else if f = "B" then some (PyStr.str "1")
  else none

/-- Witness for C8 in both modes.  At tolerance 0 the hasher is sha1sum on
an all-empty filesystem — its raw byte digests do not parse as hex, which
the theorem permits since the parse hypothesis concerns nonzero tolerance
only — and the invariant on the one-bucket mapping for file a is preserved
when the identical file b joins the bucket.  At tolerance 2 with hex
digests, file B (digest "1", distance 1 ≤ 2) joins A's bucket. -/
theorem C8_witness :
    (HDInv (fun f => some (sha1sum ⟨fun _ => [], fun _ => none⟩ f)) 0
        [(sha1sum ⟨fun _ => [], fun _ => none⟩ "a", ["a"])]
      ∧ update_hashdict (fun f => some (sha1sum ⟨fun _ => [], fun _ => none⟩ f)) "b"
          [(sha1sum ⟨fun _ => [], fun _ => none⟩ "a", ["a"])] 0
        = some [(sha1sum ⟨fun _ => [], fun _ => none⟩ "a", ["a", "b"])]
      ∧ HDInv (fun f => some (sha1sum ⟨fun _ => [], fun _ => none⟩ f)) 0
          [(sha1sum ⟨fun _ => [], fun _ => none⟩ "a", ["a", "b"])])
    ∧ (HDInv hfC8 2 [(PyStr.str "0", ["A"])]
      ∧ update_hashdict hfC8 "B" [(PyStr.str "0", ["A"])] 2
          = some [(PyStr.str "0", ["A", "B"])]
      ∧ HDInv hfC8 2 [(PyStr.str "0", ["A", "B"])]) := by
  have hparse : ∀ f d, hfC8 f = some d → (pyIntHex d.codes).isSome := by
    intro f d h
    unfold hfC8 at h
    split_ifs at h
    · injection h with h'; subst h'; decide
    · injection h with h'; subst h'; decide
  have hinv : HDInv hfC8 2 [(PyStr.str "0", ["A"])] := by
    intro kv hkv f' hf'
    simp at hkv
    subst hkv
    simp at hf'
    subst hf'
    exact ⟨PyStr.str "0", rfl, by norm_num; exact ⟨0, by decide, by norm_num⟩⟩
  have hupd : update_hashdict hfC8 "B" [(PyStr.str "0", ["A"])] 2
      = some [(PyStr.str "0", ["A", "B"])] := by decide
  have hinv0 : HDInv (fun f => some (sha1sum ⟨fun _ => [], fun _ => none⟩ f)) 0
      [(sha1sum ⟨fun _ => [], fun _ => none⟩ "a", ["a"])] := by
    intro kv hkv f' hf'
    simp at hkv
    subst hkv
    simp at hf'
    subst hf'
    exact ⟨sha1sum ⟨fun _ => [], fun _ => none⟩ "a", rfl, by norm_num⟩
  have hupd0 : update_hashdict (fun f => some (sha1sum ⟨fun _ => [], fun _ => none⟩ f)) "b"
      [(sha1sum ⟨fun _ => [], fun _ => none⟩ "a", ["a"])] 0
      = some [(sha1sum ⟨fun _ => [], fun _ => none⟩ "a", ["a", "b"])] := by decide
  exact ⟨⟨hinv0, hupd0,
      C8_invariant_preserved _ 0 (le_refl 0) (fun h => absurd rfl h) "b" _ _ hinv0 hupd0⟩,
    hinv, hupd,
    C8_invariant_preserved hfC8 2 (by norm_num) (fun _ => hparse) "B" _ _ hinv hupd⟩

/-! Exact mode: claims C3 and C6. -/

/-- An exact-mode (tolerance 0) update can never raise. -/
theorem update_exact_some (hf : String → Option PyStr) (f : String) (loc : HashDict) :
    ∃ loc1, update_hashdict hf f loc 0 = some loc1 := by
  unfold update_hashdict
  cases hd : hf f with
  | none => exact ⟨loc, rfl⟩
  | some d =>
    cases hq : dictGet loc d with
    | none => exact ⟨dictSet loc d [f], by simp [hd, hq]⟩
    | some v => exact ⟨dictAppend loc d f, by simp [hd, hq]⟩

/-- Effect of an exact-mode update on lookups: the bucket of the file's
digest gains the file at its end (springing into existence if absent), all
other buckets are untouched. -/
theorem update_exact_dictGet (hf : String → Option PyStr) (f : String)
    (loc loc' : HashDict) (d : PyStr) (hd : hf f = some d)
    (hupd : update_hashdict hf f loc 0 = some loc') (k : PyStr) :
    dictGet loc' k =
      if d = k then some ((dictGet loc k).getD [] ++ [f]) else dictGet loc k := by
  have hred : update_hashdict hf f loc 0 =
      some (match dictGet loc d with
        | none => dictSet loc d [f]
        | some _ => dictAppend loc d f) := by
    unfold update_hashdict
    simp [hd]
  rw [hred] at hupd
  injection hupd with hupd
  subst hupd
  cases hq : dictGet loc d with
  | none =>
    rw [dictGet_dictSet]
    by_cases hk : d = k
    · subst hk
      simp [hq]
    · simp [hk]
  | some v =>
    rw [dictGet_dictAppend]
    by_cases hk : d = k
    · subst hk
      simp [hq]
    · simp [hk]

/-- Combined induction for the exact-mode run: buckets only grow
(monotonicity), a sound labelling of members by their digests is preserved
(soundness), and every processed file ends up in the bucket of its own
digest (completeness). -/
theorem run_exact_props (hf : String → Option PyStr) (files : List String) :
    ∀ loc res, run_updates hf 0 files loc = some res →
      ((∀ k v, dictGet loc k = some v → ∃ v', dictGet res k = some v' ∧ v ⊆ v')
      ∧ ((∀ k v f', dictGet loc k = some v → f' ∈ v → hf f' = some k) →
          (∀ k v f', dictGet res k = some v → f' ∈ v → hf f' = some k))
      ∧ (∀ f ∈ files, ∀ d, hf f = some d → ∃ v, dictGet res d = some v ∧ f ∈ v)) := by
  induction files with
  | nil =>
    intro loc res hrun
    simp [run_updates] at hrun
    subst hrun
    exact ⟨fun k v h => ⟨v, h, List.Subset.refl v⟩, fun h => h, by simp⟩
  | cons f rest ih =>
    intro loc res hrun
    unfold run_updates at hrun
    obtain ⟨loc1, hu⟩ := update_exact_some hf f loc
    rw [hu] at hrun
    obtain ⟨mono1, sound1, complete1⟩ := ih loc1 res hrun
    cases hd : hf f with
    | none =>
      have hloc : loc1 = loc := by
        unfold update_hashdict at hu
        rw [hd] at hu
        simp at hu
        exact hu.symm
      subst hloc
      refine ⟨mono1, sound1, ?_⟩
      intro g hg d hgd
      rcases List.mem_cons.mp hg with hgf | hgr
      · subst hgf
        rw [hd] at hgd
        exact absurd hgd (by simp)
      · exact complete1 g hgr d hgd
    | some d =>
      have hchar := fun k => update_exact_dictGet hf f loc loc1 d hd hu k
      refine ⟨?_, ?_, ?_⟩
      · intro k v h
        have h1 : ∃ v1, dictGet loc1 k = some v1 ∧ v ⊆ v1 := by
          rw [hchar k]
          by_cases hk : d = k
          · rw [if_pos hk, h]
            exact ⟨v ++ [f], rfl, List.subset_append_left v [f]⟩
          · rw [if_neg hk]
            exact ⟨v, h, List.Subset.refl v⟩
        obtain ⟨v1, hv1, hsub1⟩ := h1
        obtain ⟨v', hv', hsub'⟩ := mono1 k v1 hv1
        exact ⟨v', hv', List.Subset.trans hsub1 hsub'⟩
      · intro hs
        refine sound1 ?_
        intro k v1 f1 hk1 hf1
        rw [hchar k] at hk1
        by_cases hk : d = k
        · rw [if_pos hk] at hk1
          simp only [Option.some.injEq] at hk1
          subst hk1
          rcases List.mem_append.mp hf1 with hold | hnewf
          · cases hq : dictGet loc k with
            | none => rw [hq] at hold; simp at hold
            | some v0 =>
              rw [hq] at hold
              exact hs k v0 f1 hq hold
          · simp at hnewf
            subst hnewf
            exact hk ▸ hd
        · rw [if_neg hk] at hk1
          exact hs k v1 f1 hk1 hf1
      · intro g hg dg hgd
        rcases List.mem_cons.mp hg with hgf | hgr
        · have hdd : d = dg := Option.some.inj (hd.symm.trans (hgf ▸ hgd))
          have hmem : dictGet loc1 dg = some ((dictGet loc dg).getD [] ++ [f]) := by
            rw [← hdd, hchar d, if_pos rfl]
          obtain ⟨v', hv', hsub'⟩ := mono1 dg _ hmem
          refine ⟨v', hv', hsub' ?_⟩
          rw [hgf]
          simp
        · exact complete1 g hgr dg hgd

/-- Two files lie in one bucket of the result mapping. -/
def SameBucket (res : HashDict) (f1 f2 : String) : Prop :=
  ∃ k v, dictGet res k = some v ∧ f1 ∈ v ∧ f2 ∈ v

/-- C3: in exact mode (tolerance 0), for any two input files (every file
hashes successfully there — sha1sum is total), the two files end up in the
same bucket of the result mapping iff their byte contents are identical,
under the hypothesis that SHA-1 is collision-free on the inputs of the run. -/
theorem C3_exact_partition (fs : Filesystem) (files : List String) (res : HashDict)
    (hrun : run_updates (fun f => some (sha1sum fs f)) 0 files [] = some res)
    (hinj : ∀ f1 ∈ files, ∀ f2 ∈ files,
      sha1 (fs.contents f1) = sha1 (fs.contents f2) → fs.contents f1 = fs.contents f2)
    (f1 f2 : String) (h1 : f1 ∈ files) (h2 : f2 ∈ files) :
    SameBucket res f1 f2 ↔ fs.contents f1 = fs.contents f2 := by
  obtain ⟨mono, sound, complete⟩ := run_exact_props (fun f => some (sha1sum fs f)) files [] res hrun
  constructor
  · rintro ⟨k, v, hk, m1, m2⟩
    have hs := sound (by intro k v f' h; simp [dictGet] at h)
    have e1 : some (sha1sum fs f1) = some k := hs k v f1 hk m1
    have e2 : some (sha1sum fs f2) = some k := hs k v f2 hk m2
    have e : sha1sum fs f1 = sha1sum fs f2 := by
      injection e1 with e1'
      injection e2 with e2'
      exact e1'.trans e2'.symm
    have : sha1 (fs.contents f1) = sha1 (fs.contents f2) := by
      unfold sha1sum at e
      injection e
    exact hinj f1 h1 f2 h2 this
  · intro hc
    have hkey : sha1sum fs f1 = sha1sum fs f2 := by unfold sha1sum; rw [hc]
    obtain ⟨v1, hv1, hm1⟩ := complete f1 h1 (sha1sum fs f1) rfl
    obtain ⟨v2, hv2, hm2⟩ := complete f2 h2 (sha1sum fs f2) rfl
    rw [← hkey] at hv2
    have : v1 = v2 := by rw [hv1] at hv2; injection hv2
    subst this
    exact ⟨sha1sum fs f1, v1, hv1, hm1, hm2⟩

/-- Filesystem for the C3 and C6 concrete checks: every file is empty. -/
def fsEmpty : Filesystem := ⟨fun _ => [], fun _ => none⟩

/-- Witness for C3: two empty files land in one bucket (keyed by the raw
SHA-1 digest of the empty byte string). -/
theorem C3_witness :
    SameBucket
      [(PyStr.bytes [218, 57, 163, 238, 94, 107, 75, 13, 50, 85, 191, 239,
        149, 96, 24, 144, 175, 216, 7, 9], ["a", "b"])] "a" "b" :=
  (C3_exact_partition fsEmpty ["a", "b"]
      [(PyStr.bytes [218, 57, 163, 238, 94, 107, 75, 13, 50, 85, 191, 239,
        149, 96, 24, 144, 175, 216, 7, 9], ["a", "b"])]
      (by decide) (by intro f1 h1 f2 h2 h; rfl) "a" "b"
      (by decide) (by decide)).mpr rfl

/-- Bytes of a rendered word are genuine byte values. -/
theorem wordBytes_lt (w : Nat) : ∀ b ∈ wordBytes w, b < 256 := by
  intro b hb
  simp [wordBytes] at hb
  rcases hb with h | h | h | h <;> subst h <;> exact Nat.mod_lt _ (by norm_num)

/-- A SHA-1 digest is always exactly 20 bytes long. -/
theorem sha1_length (m : List Nat) : (sha1 m).length = 20 := by
  simp [sha1, wordBytes]

/-- Every element of a SHA-1 digest is a byte value. -/
theorem sha1_mem_lt (m : List Nat) : ∀ b ∈ sha1 m, b < 256 := by
  intro b hb
  unfold sha1 at hb
  simp only [List.mem_append] at hb
  rcases hb with (((h | h) | h) | h) | h <;> exact wordBytes_lt _ b h

/-- Key provenance in an exact-mode run: every key of the result is either a
key of the starting mapping or the digest of one of the processed files. -/
theorem run_exact_keys (hf : String → Option PyStr) (files : List String) :
    ∀ loc res, run_updates hf 0 files loc = some res →
      ∀ kv ∈ res, kv.1 ∈ loc.map Prod.fst ∨ ∃ f ∈ files, hf f = some kv.1 := by
  induction files with
  | nil =>
    intro loc res hrun kv hkv
    simp [run_updates] at hrun
    subst hrun
    exact Or.inl (List.mem_map_of_mem Prod.fst hkv)
  | cons f rest ih =>
    intro loc res hrun kv hkv
    unfold run_updates at hrun
    obtain ⟨loc1, hu⟩ := update_exact_some hf f loc
    rw [hu] at hrun
    rcases ih loc1 res hrun kv hkv with hk1 | ⟨g, hg, hgk⟩
    · cases hd : hf f with
      | none =>
        have hloc : loc1 = loc := by
          unfold update_hashdict at hu
          rw [hd] at hu
          simp at hu
          exact hu.symm
        subst hloc
        exact Or.inl hk1
      | some d =>
        have hred : update_hashdict hf f loc 0 =
            some (match dictGet loc d with
              | none => dictSet loc d [f]
              | some _ => dictAppend loc d f) := by
          unfold update_hashdict
          simp [hd]
        rw [hred] at hu
        injection hu with hu
        obtain ⟨kv1, hkv1m, hkv1⟩ := List.mem_map.mp hk1
        cases hq : dictGet loc d with
        | none =>
          rw [hq] at hu
          simp only [] at hu
          rw [← hu] at hkv1m
          rcases mem_dictSet loc d [f] kv1 hkv1m with hin | hnew
          · exact Or.inl (hkv1 ▸ List.mem_map_of_mem Prod.fst hin)
          · subst hnew
            exact Or.inr ⟨f, by simp, by rw [hd, ← hkv1]⟩
        | some v =>
          rw [hq] at hu
          simp only [] at hu
          rw [← hu] at hkv1m
          obtain ⟨kv0, hin, hkey, _⟩ := mem_dictAppend loc d f kv1 hkv1m
          refine Or.inl ?_
          rw [← hkv1, hkey]
          exact List.mem_map_of_mem Prod.fst hin
    · exact Or.inr ⟨g, by simp [hg], hgk⟩

/-- C6 amended: in exact mode the hash produced for a file is the raw
fixed-length SHA-1 digest — sha1(contents).digest(), a bytes value of
exactly 20 arbitrary byte values, NOT a hex rendering — and therefore every
key of the exact-mode result mapping is such a 20-byte byte string. -/
theorem C6_amended (fs : Filesystem) (files : List String) (res : HashDict)
    (hrun : run_updates (fun f => some (sha1sum fs f)) 0 files [] = some res) :
    ∀ kv ∈ res, ∃ l : List Nat, kv.1 = PyStr.bytes l ∧ l.length = 20 ∧ ∀ b ∈ l, b < 256 := by
  intro kv hkv
  rcases run_exact_keys (fun f => some (sha1sum fs f)) files [] res hrun kv hkv with h | ⟨f, _, hfk⟩
  · simp at h
  · refine ⟨sha1 (fs.contents f), ?_, sha1_length _, sha1_mem_lt _⟩
    have : sha1sum fs f = kv.1 := by injection hfk
    rw [← this]
    rfl

/-- Code point of an ASCII hexadecimal digit character (0-9, a-f, A-F). -/
def IsHexCode (c : Nat) : Prop :=
  (48 ≤ c ∧ c ≤ 57) ∨ (97 ≤ c ∧ c ≤ 102) ∨ (65 ≤ c ∧ c ≤ 70)

instance (c : Nat) : Decidable (IsHexCode c) := by
  unfold IsHexCode; infer_instance

/-- Counterexample to C6: the exact-mode hash of an empty file is
sha1(b"").digest(), whose first byte is 0xda = 218 — not the code of any
hexadecimal character — so the key is a raw 20-byte string, not a
fixed-length string of hexadecimal characters as the claim states. -/
theorem C6_counterexample :
    sha1sum fsEmpty "f" = PyStr.bytes (sha1 [])
    ∧ ¬ ∀ b ∈ sha1 [], IsHexCode b :=
  ⟨rfl, by decide⟩

/-- Witness for C6 amended at the concrete one-file, empty-content run: the
single key of the result is a 20-element byte string. -/
theorem C6_witness :
    ∃ l : List Nat,
      (PyStr.bytes [218, 57, 163, 238, 94, 107, 75, 13, 50, 85, 191, 239,
        149, 96, 24, 144, 175, 216, 7, 9], ["a"]).1 = PyStr.bytes l
      ∧ l.length = 20 ∧ ∀ b ∈ l, b < 256 :=
  C6_amended fsEmpty ["a"]
    [(PyStr.bytes [218, 57, 163, 238, 94, 107, 75, 13, 50, 85, 191, 239,
      149, 96, 24, 144, 175, 216, 7, 9], ["a"])]
    (by decide) _ (by simp)

theorem colorLoop_step (hist : List Nat) (offset : Int) (step fuel : Nat) (start : Int)
    (total ret : Nat) (h : offset < start) :
    colorLoop hist offset step (fuel+1) start total ret
      = colorLoop hist offset step fuel (start - step)
          (sliceSum hist start (start + step))
          ((ret + if sliceSum hist start (start + step) < total then 1 else 0) * 2) := by
  simp [colorLoop, h]

theorem colorLoop_stop (hist : List Nat) (offset : Int) (step fuel : Nat) (start : Int)
    (total ret : Nat) (h : ¬ offset < start) :
    colorLoop hist offset step (fuel+1) start total ret = (ret, start, total) := by
  simp [colorLoop, h]

/-- The eleven histogram-slice sums a colour channel at offset o compares,
in comparison order, for the program's actual configuration bits_per_color=8
(step = 28, walk boundaries 242, 214, ..., 18 relative to the channel
offset; note the second slice reaches 14 bins past the channel's end, and
the last covers the 18 darkest bins): the initial mass above the first
boundary, the nine successive step-bin masses of the while loop, and the
final remainder bin. -/
def chanSums (hist : List Nat) (o : Int) : List Nat :=
  [sliceSum hist (o+242) (o+256),
   sliceSum hist (o+242) (o+270),
   sliceSum hist (o+214) (o+242),
   sliceSum hist (o+186) (o+214),
   sliceSum hist (o+158) (o+186),
   sliceSum hist (o+130) (o+158),
   sliceSum hist (o+102) (o+130),
   sliceSum hist (o+74) (o+102),
   sliceSum hist (o+46) (o+74),
   sliceSum hist (o+18) (o+46),
   sliceSum hist o (o+18)]

/-- Comparison bits of consecutive entries: bit i is 1 iff the i-th value
exceeds the next (the monotonic-descent encoding of the spec). -/
def descBits : List Nat → List Nat
  | a :: b :: rest => (if b < a then 1 else 0) :: descBits (b :: rest)
  | _ => []

/-- MSB-first accumulation of a bit list onto acc (shift left, add bit). -/
def bitsFold (bits : List Nat) (acc : Nat) : Nat := bits.foldl (fun a b => a * 2 + b) acc

/-- The 10-bit value one colour channel contributes at bits_per_color = 8:
the descent bits of the eleven walk sums, MSB first. -/
def chanVal (hist : List Nat) (o : Int) : Nat := bitsFold (descBits (chanSums hist o)) 0

theorem colorChannel_eq (hist : List Nat) (o : Nat) (ret : Nat) :
    colorChannel hist o 28 ret = ret * 1024 + chanVal hist (o : Int) := by
  have e1 : colorLoop hist (o:Int) 28 242 ((o:Int)+242) (sliceSum hist ((o:Int)+242) ((o:Int)+256)) (ret * 2)
      = colorLoop hist (o:Int) 28 241 ((o:Int)+214) (sliceSum hist ((o:Int)+242) ((o:Int)+270)) (((ret * 2) + (if sliceSum hist ((o:Int)+242) ((o:Int)+270) < sliceSum hist ((o:Int)+242) ((o:Int)+256) then 1 else 0)) * 2) := by
    rw [show (242:Nat) = 241+1 from rfl,
      colorLoop_step hist (o:Int) 28 241 ((o:Int)+242) (sliceSum hist ((o:Int)+242) ((o:Int)+256)) (ret * 2) (by omega)]
    ring_nf
  have e2 : colorLoop hist (o:Int) 28 241 ((o:Int)+214) (sliceSum hist ((o:Int)+242) ((o:Int)+270)) (((ret * 2) + (if sliceSum hist ((o:Int)+242) ((o:Int)+270) < sliceSum hist ((o:Int)+242) ((o:Int)+256) then 1 else 0)) * 2)
      = colorLoop hist (o:Int) 28 240 ((o:Int)+186) (sliceSum hist ((o:Int)+214) ((o:Int)+242)) (((((ret * 2) + (if sliceSum hist ((o:Int)+242) ((o:Int)+270) < sliceSum hist ((o:Int)+242) ((o:Int)+256) then 1 else 0)) * 2) + (if sliceSum hist ((o:Int)+214) ((o:Int)+242) < sliceSum hist ((o:Int)+242) ((o:Int)+270) then 1 else 0)) * 2) := by
    rw [show (241:Nat) = 240+1 from rfl,
      colorLoop_step hist (o:Int) 28 240 ((o:Int)+214) (sliceSum hist ((o:Int)+242) ((o:Int)+270)) (((ret * 2) + (if sliceSum hist ((o:Int)+242) ((o:Int)+270) < sliceSum hist ((o:Int)+242) ((o:Int)+256) then 1 else 0)) * 2) (by omega)]
    ring_nf
  have e3 : colorLoop hist (o:Int) 28 240 ((o:Int)+186) (sliceSum hist ((o:Int)+214) ((o:Int)+242)) (((((ret * 2) + (if sliceSum hist ((o:Int)+242) ((o:Int)+270) < sliceSum hist ((o:Int)+242) ((o:Int)+256) then 1 else 0)) * 2) + (if sliceSum hist ((o:Int)+214) ((o:Int)+242) < sliceSum hist ((o:Int)+242) ((o:Int)+270) then 1 else 0)) * 2)
      = colorLoop hist (o:Int) 28 239 ((o:Int)+158) (sliceSum hist ((o:Int)+186) ((o:Int)+214)) (((((((ret * 2) + (if sliceSum hist ((o:Int)+242) ((o:Int)+270) < sliceSum hist ((o:Int)+242) ((o:Int)+256) then 1 else 0)) * 2) + (if sliceSum hist ((o:Int)+214) ((o:Int)+242) < sliceSum hist ((o:Int)+242) ((o:Int)+270) then 1 else 0)) * 2) + (if sliceSum hist ((o:Int)+186) ((o:Int)+214) < sliceSum hist ((o:Int)+214) ((o:Int)+242) then 1 else 0)) * 2) := by
    rw [show (240:Nat) = 239+1 from rfl,
      colorLoop_step hist (o:Int) 28 239 ((o:Int)+186) (sliceSum hist ((o:Int)+214) ((o:Int)+242)) (((((ret * 2) + (if sliceSum hist ((o:Int)+242) ((o:Int)+270) < sliceSum hist ((o:Int)+242) ((o:Int)+256) then 1 else 0)) * 2) + (if sliceSum hist ((o:Int)+214) ((o:Int)+242) < sliceSum hist ((o:Int)+242) ((o:Int)+270) then 1 else 0)) * 2) (by omega)]
    ring_nf
  have e4 : colorLoop hist (o:Int) 28 239 ((o:Int)+158) (sliceSum hist ((o:Int)+186) ((o:Int)+214)) (((((((ret * 2) + (if sliceSum hist ((o:Int)+242) ((o:Int)+270) < sliceSum hist ((o:Int)+242) ((o:Int)+256) then 1 else 0)) * 2) + (if sliceSum hist ((o:Int)+214) ((o:Int)+242) < sliceSum hist ((o:Int)+242) ((o:Int)+270) then 1 else 0)) * 2) + (if sliceSum hist ((o:Int)+186) ((o:Int)+214) < sliceSum hist ((o:Int)+214) ((o:Int)+242) then 1 else 0)) * 2)
      = colorLoop hist (o:Int) 28 238 ((o:Int)+130) (sliceSum hist ((o:Int)+158) ((o:Int)+186)) (((((((((ret * 2) + (if sliceSum hist ((o:Int)+242) ((o:Int)+270) < sliceSum hist ((o:Int)+242) ((o:Int)+256) then 1 else 0)) * 2) + (if sliceSum hist ((o:Int)+214) ((o:Int)+242) < sliceSum hist ((o:Int)+242) ((o:Int)+270) then 1 else 0)) * 2) + (if sliceSum hist ((o:Int)+186) ((o:Int)+214) < sliceSum hist ((o:Int)+214) ((o:Int)+242) then 1 else 0)) * 2) + (if sliceSum hist ((o:Int)+158) ((o:Int)+186) < sliceSum hist ((o:Int)+186) ((o:Int)+214) then 1 else 0)) * 2) := by
    rw [show (239:Nat) = 238+1 from rfl,
      colorLoop_step hist (o:Int) 28 238 ((o:Int)+158) (sliceSum hist ((o:Int)+186) ((o:Int)+214)) (((((((ret * 2) + (if sliceSum hist ((o:Int)+242) ((o:Int)+270) < sliceSum hist ((o:Int)+242) ((o:Int)+256) then 1 else 0)) * 2) + (if sliceSum hist ((o:Int)+214) ((o:Int)+242) < sliceSum hist ((o:Int)+242) ((o:Int)+270) then 1 else 0)) * 2) + (if sliceSum hist ((o:Int)+186) ((o:Int)+214) < sliceSum hist ((o:Int)+214) ((o:Int)+242) then 1 else 0)) * 2) (by omega)]
    ring_nf
  have e5 : colorLoop hist (o:Int) 28 238 ((o:Int)+130) (sliceSum hist ((o:Int)+158) ((o:Int)+186)) (((((((((ret * 2) + (if sliceSum hist ((o:Int)+242) ((o:Int)+270) < sliceSum hist ((o:Int)+242) ((o:Int)+256) then 1 else 0)) * 2) + (if sliceSum hist ((o:Int)+214) ((o:Int)+242) < sliceSum hist ((o:Int)+242) ((o:Int)+270) then 1 else 0)) * 2) + (if sliceSum hist ((o:Int)+186) ((o:Int)+214) < sliceSum hist ((o:Int)+214) ((o:Int)+242) then 1 else 0)) * 2) + (if sliceSum hist ((o:Int)+158) ((o:Int)+186) < sliceSum hist ((o:Int)+186) ((o:Int)+214) then 1 else 0)) * 2)
      = colorLoop hist (o:Int) 28 237 ((o:Int)+102) (sliceSum hist ((o:Int)+130) ((o:Int)+158)) (((((((((((ret * 2) + (if sliceSum hist ((o:Int)+242) ((o:Int)+270) < sliceSum hist ((o:Int)+242) ((o:Int)+256) then 1 else 0)) * 2) + (if sliceSum hist ((o:Int)+214) ((o:Int)+242) < sliceSum hist ((o:Int)+242) ((o:Int)+270) then 1 else 0)) * 2) + (if sliceSum hist ((o:Int)+186) ((o:Int)+214) < sliceSum hist ((o:Int)+214) ((o:Int)+242) then 1 else 0)) * 2) + (if sliceSum hist ((o:Int)+158) ((o:Int)+186) < sliceSum hist ((o:Int)+186) ((o:Int)+214) then 1 else 0)) * 2) + (if sliceSum hist ((o:Int)+130) ((o:Int)+158) < sliceSum hist ((o:Int)+158) ((o:Int)+186) then 1 else 0)) * 2) := by
    rw [show (238:Nat) = 237+1 from rfl,
      colorLoop_step hist (o:Int) 28 237 ((o:Int)+130) (sliceSum hist ((o:Int)+158) ((o:Int)+186)) (((((((((ret * 2) + (if sliceSum hist ((o:Int)+242) ((o:Int)+270) < sliceSum hist ((o:Int)+242) ((o:Int)+256) then 1 else 0)) * 2) + (if sliceSum hist ((o:Int)+214) ((o:Int)+242) < sliceSum hist ((o:Int)+242) ((o:Int)+270) then 1 else 0)) * 2) + (if sliceSum hist ((o:Int)+186) ((o:Int)+214) < sliceSum hist ((o:Int)+214) ((o:Int)+242) then 1 else 0)) * 2) + (if sliceSum hist ((o:Int)+158) ((o:Int)+186) < sliceSum hist ((o:Int)+186) ((o:Int)+214) then 1 else 0)) * 2) (by omega)]
    ring_nf
  have e6 : colorLoop hist (o:Int) 28 237 ((o:Int)+102) (sliceSum hist ((o:Int)+130) ((o:Int)+158)) (((((((((((ret * 2) + (if sliceSum hist ((o:Int)+242) ((o:Int)+270) < sliceSum hist ((o:Int)+242) ((o:Int)+256) then 1 else 0)) * 2) + (if sliceSum hist ((o:Int)+214) ((o:Int)+242) < sliceSum hist ((o:Int)+242) ((o:Int)+270) then 1 else 0)) * 2) + (if sliceSum hist ((o:Int)+186) ((o:Int)+214) < sliceSum hist ((o:Int)+214) ((o:Int)+242) then 1 else 0)) * 2) + (if sliceSum hist ((o:Int)+158) ((o:Int)+186) < sliceSum hist ((o:Int)+186) ((o:Int)+214) then 1 else 0)) * 2) + (if sliceSum hist ((o:Int)+130) ((o:Int)+158) < sliceSum hist ((o:Int)+158) ((o:Int)+186) then 1 else 0)) * 2)
      = colorLoop hist (o:Int) 28 236 ((o:Int)+74) (sliceSum hist ((o:Int)+102) ((o:Int)+130)) (((((((((((((ret * 2) + (if sliceSum hist ((o:Int)+242) ((o:Int)+270) < sliceSum hist ((o:Int)+242) ((o:Int)+256) then 1 else 0)) * 2) + (if sliceSum hist ((o:Int)+214) ((o:Int)+242) < sliceSum hist ((o:Int)+242) ((o:Int)+270) then 1 else 0)) * 2) + (if sliceSum hist ((o:Int)+186) ((o:Int)+214) < sliceSum hist ((o:Int)+214) ((o:Int)+242) then 1 else 0)) * 2) + (if sliceSum hist ((o:Int)+158) ((o:Int)+186) < sliceSum hist ((o:Int)+186) ((o:Int)+214) then 1 else 0)) * 2) + (if sliceSum hist ((o:Int)+130) ((o:Int)+158) < sliceSum hist ((o:Int)+158) ((o:Int)+186) then 1 else 0)) * 2) + (if sliceSum hist ((o:Int)+102) ((o:Int)+130) < sliceSum hist ((o:Int)+130) ((o:Int)+158) then 1 else 0)) * 2) := by
    rw [show (237:Nat) = 236+1 from rfl,
      colorLoop_step hist (o:Int) 28 236 ((o:Int)+102) (sliceSum hist ((o:Int)+130) ((o:Int)+158)) (((((((((((ret * 2) + (if sliceSum hist ((o:Int)+242) ((o:Int)+270) < sliceSum hist ((o:Int)+242) ((o:Int)+256) then 1 else 0)) * 2) + (if sliceSum hist ((o:Int)+214) ((o:Int)+242) < sliceSum hist ((o:Int)+242) ((o:Int)+270) then 1 else 0)) * 2) + (if sliceSum hist ((o:Int)+186) ((o:Int)+214) < sliceSum hist ((o:Int)+214) ((o:Int)+242) then 1 else 0)) * 2) + (if sliceSum hist ((o:Int)+158) ((o:Int)+186) < sliceSum hist ((o:Int)+186) ((o:Int)+214) then 1 else 0)) * 2) + (if sliceSum hist ((o:Int)+130) ((o:Int)+158) < sliceSum hist ((o:Int)+158) ((o:Int)+186) then 1 else 0)) * 2) (by omega)]
    ring_nf
  have e7 : colorLoop hist (o:Int) 28 236 ((o:Int)+74) (sliceSum hist ((o:Int)+102) ((o:Int)+130)) (((((((((((((ret * 2) + (if sliceSum hist ((o:Int)+242) ((o:Int)+270) < sliceSum hist ((o:Int)+242) ((o:Int)+256) then 1 else 0)) * 2) + (if sliceSum hist ((o:Int)+214) ((o:Int)+242) < sliceSum hist ((o:Int)+242) ((o:Int)+270) then 1 else 0)) * 2) + (if sliceSum hist ((o:Int)+186) ((o:Int)+214) < sliceSum hist ((o:Int)+214) ((o:Int)+242) then 1 else 0)) * 2) + (if sliceSum hist ((o:Int)+158) ((o:Int)+186) < sliceSum hist ((o:Int)+186) ((o:Int)+214) then 1 else 0)) * 2) + (if sliceSum hist ((o:Int)+130) ((o:Int)+158) < sliceSum hist ((o:Int)+158) ((o:Int)+186) then 1 else 0)) * 2) + (if sliceSum hist ((o:Int)+102) ((o:Int)+130) < sliceSum hist ((o:Int)+130) ((o:Int)+158) then 1 else 0)) * 2)
      = colorLoop hist (o:Int) 28 235 ((o:Int)+46) (sliceSum hist ((o:Int)+74) ((o:Int)+102)) (((((((((((((((ret * 2) + (if sliceSum hist ((o:Int)+242) ((o:Int)+270) < sliceSum hist ((o:Int)+242) ((o:Int)+256) then 1 else 0)) * 2) + (if sliceSum hist ((o:Int)+214) ((o:Int)+242) < sliceSum hist ((o:Int)+242) ((o:Int)+270) then 1 else 0)) * 2) + (if sliceSum hist ((o:Int)+186) ((o:Int)+214) < sliceSum hist ((o:Int)+214) ((o:Int)+242) then 1 else 0)) * 2) + (if sliceSum hist ((o:Int)+158) ((o:Int)+186) < sliceSum hist ((o:Int)+186) ((o:Int)+214) then 1 else 0)) * 2) + (if sliceSum hist ((o:Int)+130) ((o:Int)+158) < sliceSum hist ((o:Int)+158) ((o:Int)+186) then 1 else 0)) * 2) + (if sliceSum hist ((o:Int)+102) ((o:Int)+130) < sliceSum hist ((o:Int)+130) ((o:Int)+158) then 1 else 0)) * 2) + (if sliceSum hist ((o:Int)+74) ((o:Int)+102) < sliceSum hist ((o:Int)+102) ((o:Int)+130) then 1 else 0)) * 2) := by
    rw [show (236:Nat) = 235+1 from rfl,
      colorLoop_step hist (o:Int) 28 235 ((o:Int)+74) (sliceSum hist ((o:Int)+102) ((o:Int)+130)) (((((((((((((ret * 2) + (if sliceSum hist ((o:Int)+242) ((o:Int)+270) < sliceSum hist ((o:Int)+242) ((o:Int)+256) then 1 else 0)) * 2) + (if sliceSum hist ((o:Int)+214) ((o:Int)+242) < sliceSum hist ((o:Int)+242) ((o:Int)+270) then 1 else 0)) * 2) + (if sliceSum hist ((o:Int)+186) ((o:Int)+214) < sliceSum hist ((o:Int)+214) ((o:Int)+242) then 1 else 0)) * 2) + (if sliceSum hist ((o:Int)+158) ((o:Int)+186) < sliceSum hist ((o:Int)+186) ((o:Int)+214) then 1 else 0)) * 2) + (if sliceSum hist ((o:Int)+130) ((o:Int)+158) < sliceSum hist ((o:Int)+158) ((o:Int)+186) then 1 else 0)) * 2) + (if sliceSum hist ((o:Int)+102) ((o:Int)+130) < sliceSum hist ((o:Int)+130) ((o:Int)+158) then 1 else 0)) * 2) (by omega)]
    ring_nf
  have e8 : colorLoop hist (o:Int) 28 235 ((o:Int)+46) (sliceSum hist ((o:Int)+74) ((o:Int)+102)) (((((((((((((((ret * 2) + (if sliceSum hist ((o:Int)+242) ((o:Int)+270) < sliceSum hist ((o:Int)+242) ((o:Int)+256) then 1 else 0)) * 2) + (if sliceSum hist ((o:Int)+214) ((o:Int)+242) < sliceSum hist ((o:Int)+242) ((o:Int)+270) then 1 else 0)) * 2) + (if sliceSum hist ((o:Int)+186) ((o:Int)+214) < sliceSum hist ((o:Int)+214) ((o:Int)+242) then 1 else 0)) * 2) + (if sliceSum hist ((o:Int)+158) ((o:Int)+186) < sliceSum hist ((o:Int)+186) ((o:Int)+214) then 1 else 0)) * 2) + (if sliceSum hist ((o:Int)+130) ((o:Int)+158) < sliceSum hist ((o:Int)+158) ((o:Int)+186) then 1 else 0)) * 2) + (if sliceSum hist ((o:Int)+102) ((o:Int)+130) < sliceSum hist ((o:Int)+130) ((o:Int)+158) then 1 else 0)) * 2) + (if sliceSum hist ((o:Int)+74) ((o:Int)+102) < sliceSum hist ((o:Int)+102) ((o:Int)+130) then 1 else 0)) * 2)
      = colorLoop hist (o:Int) 28 234 ((o:Int)+18) (sliceSum hist ((o:Int)+46) ((o:Int)+74)) (((((((((((((((((ret * 2) + (if sliceSum hist ((o:Int)+242) ((o:Int)+270) < sliceSum hist ((o:Int)+242) ((o:Int)+256) then 1 else 0)) * 2) + (if sliceSum hist ((o:Int)+214) ((o:Int)+242) < sliceSum hist ((o:Int)+242) ((o:Int)+270) then 1 else 0)) * 2) + (if sliceSum hist ((o:Int)+186) ((o:Int)+214) < sliceSum hist ((o:Int)+214) ((o:Int)+242) then 1 else 0)) * 2) + (if sliceSum hist ((o:Int)+158) ((o:Int)+186) < sliceSum hist ((o:Int)+186) ((o:Int)+214) then 1 else 0)) * 2) + (if sliceSum hist ((o:Int)+130) ((o:Int)+158) < sliceSum hist ((o:Int)+158) ((o:Int)+186) then 1 else 0)) * 2) + (if sliceSum hist ((o:Int)+102) ((o:Int)+130) < sliceSum hist ((o:Int)+130) ((o:Int)+158) then 1 else 0)) * 2) + (if sliceSum hist ((o:Int)+74) ((o:Int)+102) < sliceSum hist ((o:Int)+102) ((o:Int)+130) then 1 else 0)) * 2) + (if sliceSum hist ((o:Int)+46) ((o:Int)+74) < sliceSum hist ((o:Int)+74) ((o:Int)+102) then 1 else 0)) * 2) := by
    rw [show (235:Nat) = 234+1 from rfl,
      colorLoop_step hist (o:Int) 28 234 ((o:Int)+46) (sliceSum hist ((o:Int)+74) ((o:Int)+102)) (((((((((((((((ret * 2) + (if sliceSum hist ((o:Int)+242) ((o:Int)+270) < sliceSum hist ((o:Int)+242) ((o:Int)+256) then 1 else 0)) * 2) + (if sliceSum hist ((o:Int)+214) ((o:Int)+242) < sliceSum hist ((o:Int)+242) ((o:Int)+270) then 1 else 0)) * 2) + (if sliceSum hist ((o:Int)+186) ((o:Int)+214) < sliceSum hist ((o:Int)+214) ((o:Int)+242) then 1 else 0)) * 2) + (if sliceSum hist ((o:Int)+158) ((o:Int)+186) < sliceSum hist ((o:Int)+186) ((o:Int)+214) then 1 else 0)) * 2) + (if sliceSum hist ((o:Int)+130) ((o:Int)+158) < sliceSum hist ((o:Int)+158) ((o:Int)+186) then 1 else 0)) * 2) + (if sliceSum hist ((o:Int)+102) ((o:Int)+130) < sliceSum hist ((o:Int)+130) ((o:Int)+158) then 1 else 0)) * 2) + (if sliceSum hist ((o:Int)+74) ((o:Int)+102) < sliceSum hist ((o:Int)+102) ((o:Int)+130) then 1 else 0)) * 2) (by omega)]
    ring_nf
  have e9 : colorLoop hist (o:Int) 28 234 ((o:Int)+18) (sliceSum hist ((o:Int)+46) ((o:Int)+74)) (((((((((((((((((ret * 2) + (if sliceSum hist ((o:Int)+242) ((o:Int)+270) < sliceSum hist ((o:Int)+242) ((o:Int)+256) then 1 else 0)) * 2) + (if sliceSum hist ((o:Int)+214) ((o:Int)+242) < sliceSum hist ((o:Int)+242) ((o:Int)+270) then 1 else 0)) * 2) + (if sliceSum hist ((o:Int)+186) ((o:Int)+214) < sliceSum hist ((o:Int)+214) ((o:Int)+242) then 1 else 0)) * 2) + (if sliceSum hist ((o:Int)+158) ((o:Int)+186) < sliceSum hist ((o:Int)+186) ((o:Int)+214) then 1 else 0)) * 2) + (if sliceSum hist ((o:Int)+130) ((o:Int)+158) < sliceSum hist ((o:Int)+158) ((o:Int)+186) then 1 else 0)) * 2) + (if sliceSum hist ((o:Int)+102) ((o:Int)+130) < sliceSum hist ((o:Int)+130) ((o:Int)+158) then 1 else 0)) * 2) + (if sliceSum hist ((o:Int)+74) ((o:Int)+102) < sliceSum hist ((o:Int)+102) ((o:Int)+130) then 1 else 0)) * 2) + (if sliceSum hist ((o:Int)+46) ((o:Int)+74) < sliceSum hist ((o:Int)+74) ((o:Int)+102) then 1 else 0)) * 2)
      = colorLoop hist (o:Int) 28 233 ((o:Int) - 10) (sliceSum hist ((o:Int)+18) ((o:Int)+46)) (((((((((((((((((((ret * 2) + (if sliceSum hist ((o:Int)+242) ((o:Int)+270) < sliceSum hist ((o:Int)+242) ((o:Int)+256) then 1 else 0)) * 2) + (if sliceSum hist ((o:Int)+214) ((o:Int)+242) < sliceSum hist ((o:Int)+242) ((o:Int)+270) then 1 else 0)) * 2) + (if sliceSum hist ((o:Int)+186) ((o:Int)+214) < sliceSum hist ((o:Int)+214) ((o:Int)+242) then 1 else 0)) * 2) + (if sliceSum hist ((o:Int)+158) ((o:Int)+186) < sliceSum hist ((o:Int)+186) ((o:Int)+214) then 1 else 0)) * 2) + (if sliceSum hist ((o:Int)+130) ((o:Int)+158) < sliceSum hist ((o:Int)+158) ((o:Int)+186) then 1 else 0)) * 2) + (if sliceSum hist ((o:Int)+102) ((o:Int)+130) < sliceSum hist ((o:Int)+130) ((o:Int)+158) then 1 else 0)) * 2) + (if sliceSum hist ((o:Int)+74) ((o:Int)+102) < sliceSum hist ((o:Int)+102) ((o:Int)+130) then 1 else 0)) * 2) + (if sliceSum hist ((o:Int)+46) ((o:Int)+74) < sliceSum hist ((o:Int)+74) ((o:Int)+102) then 1 else 0)) * 2) + (if sliceSum hist ((o:Int)+18) ((o:Int)+46) < sliceSum hist ((o:Int)+46) ((o:Int)+74) then 1 else 0)) * 2) := by
    rw [show (234:Nat) = 233+1 from rfl,
      colorLoop_step hist (o:Int) 28 233 ((o:Int)+18) (sliceSum hist ((o:Int)+46) ((o:Int)+74)) (((((((((((((((((ret * 2) + (if sliceSum hist ((o:Int)+242) ((o:Int)+270) < sliceSum hist ((o:Int)+242) ((o:Int)+256) then 1 else 0)) * 2) + (if sliceSum hist ((o:Int)+214) ((o:Int)+242) < sliceSum hist ((o:Int)+242) ((o:Int)+270) then 1 else 0)) * 2) + (if sliceSum hist ((o:Int)+186) ((o:Int)+214) < sliceSum hist ((o:Int)+214) ((o:Int)+242) then 1 else 0)) * 2) + (if sliceSum hist ((o:Int)+158) ((o:Int)+186) < sliceSum hist ((o:Int)+186) ((o:Int)+214) then 1 else 0)) * 2) + (if sliceSum hist ((o:Int)+130) ((o:Int)+158) < sliceSum hist ((o:Int)+158) ((o:Int)+186) then 1 else 0)) * 2) + (if sliceSum hist ((o:Int)+102) ((o:Int)+130) < sliceSum hist ((o:Int)+130) ((o:Int)+158) then 1 else 0)) * 2) + (if sliceSum hist ((o:Int)+74) ((o:Int)+102) < sliceSum hist ((o:Int)+102) ((o:Int)+130) then 1 else 0)) * 2) + (if sliceSum hist ((o:Int)+46) ((o:Int)+74) < sliceSum hist ((o:Int)+74) ((o:Int)+102) then 1 else 0)) * 2) (by omega)]
    ring_nf
  have e10 : colorLoop hist (o:Int) 28 233 ((o:Int) - 10) (sliceSum hist ((o:Int)+18) ((o:Int)+46)) (((((((((((((((((((ret * 2) + (if sliceSum hist ((o:Int)+242) ((o:Int)+270) < sliceSum hist ((o:Int)+242) ((o:Int)+256) then 1 else 0)) * 2) + (if sliceSum hist ((o:Int)+214) ((o:Int)+242) < sliceSum hist ((o:Int)+242) ((o:Int)+270) then 1 else 0)) * 2) + (if sliceSum hist ((o:Int)+186) ((o:Int)+214) < sliceSum hist ((o:Int)+214) ((o:Int)+242) then 1 else 0)) * 2) + (if sliceSum hist ((o:Int)+158) ((o:Int)+186) < sliceSum hist ((o:Int)+186) ((o:Int)+214) then 1 else 0)) * 2) + (if sliceSum hist ((o:Int)+130) ((o:Int)+158) < sliceSum hist ((o:Int)+158) ((o:Int)+186) then 1 else 0)) * 2) + (if sliceSum hist ((o:Int)+102) ((o:Int)+130) < sliceSum hist ((o:Int)+130) ((o:Int)+158) then 1 else 0)) * 2) + (if sliceSum hist ((o:Int)+74) ((o:Int)+102) < sliceSum hist ((o:Int)+102) ((o:Int)+130) then 1 else 0)) * 2) + (if sliceSum hist ((o:Int)+46) ((o:Int)+74) < sliceSum hist ((o:Int)+74) ((o:Int)+102) then 1 else 0)) * 2) + (if sliceSum hist ((o:Int)+18) ((o:Int)+46) < sliceSum hist ((o:Int)+46) ((o:Int)+74) then 1 else 0)) * 2)
      = ((((((((((((((((((((ret * 2) + (if sliceSum hist ((o:Int)+242) ((o:Int)+270) < sliceSum hist ((o:Int)+242) ((o:Int)+256) then 1 else 0)) * 2) + (if sliceSum hist ((o:Int)+214) ((o:Int)+242) < sliceSum hist ((o:Int)+242) ((o:Int)+270) then 1 else 0)) * 2) + (if sliceSum hist ((o:Int)+186) ((o:Int)+214) < sliceSum hist ((o:Int)+214) ((o:Int)+242) then 1 else 0)) * 2) + (if sliceSum hist ((o:Int)+158) ((o:Int)+186) < sliceSum hist ((o:Int)+186) ((o:Int)+214) then 1 else 0)) * 2) + (if sliceSum hist ((o:Int)+130) ((o:Int)+158) < sliceSum hist ((o:Int)+158) ((o:Int)+186) then 1 else 0)) * 2) + (if sliceSum hist ((o:Int)+102) ((o:Int)+130) < sliceSum hist ((o:Int)+130) ((o:Int)+158) then 1 else 0)) * 2) + (if sliceSum hist ((o:Int)+74) ((o:Int)+102) < sliceSum hist ((o:Int)+102) ((o:Int)+130) then 1 else 0)) * 2) + (if sliceSum hist ((o:Int)+46) ((o:Int)+74) < sliceSum hist ((o:Int)+74) ((o:Int)+102) then 1 else 0)) * 2) + (if sliceSum hist ((o:Int)+18) ((o:Int)+46) < sliceSum hist ((o:Int)+46) ((o:Int)+74) then 1 else 0)) * 2), (o:Int) - 10, (sliceSum hist ((o:Int)+18) ((o:Int)+46))) := by
    rw [show (233:Nat) = 232+1 from rfl,
      colorLoop_stop hist (o:Int) 28 232 ((o:Int) - 10) (sliceSum hist ((o:Int)+18) ((o:Int)+46)) (((((((((((((((((((ret * 2) + (if sliceSum hist ((o:Int)+242) ((o:Int)+270) < sliceSum hist ((o:Int)+242) ((o:Int)+256) then 1 else 0)) * 2) + (if sliceSum hist ((o:Int)+214) ((o:Int)+242) < sliceSum hist ((o:Int)+242) ((o:Int)+270) then 1 else 0)) * 2) + (if sliceSum hist ((o:Int)+186) ((o:Int)+214) < sliceSum hist ((o:Int)+214) ((o:Int)+242) then 1 else 0)) * 2) + (if sliceSum hist ((o:Int)+158) ((o:Int)+186) < sliceSum hist ((o:Int)+186) ((o:Int)+214) then 1 else 0)) * 2) + (if sliceSum hist ((o:Int)+130) ((o:Int)+158) < sliceSum hist ((o:Int)+158) ((o:Int)+186) then 1 else 0)) * 2) + (if sliceSum hist ((o:Int)+102) ((o:Int)+130) < sliceSum hist ((o:Int)+130) ((o:Int)+158) then 1 else 0)) * 2) + (if sliceSum hist ((o:Int)+74) ((o:Int)+102) < sliceSum hist ((o:Int)+102) ((o:Int)+130) then 1 else 0)) * 2) + (if sliceSum hist ((o:Int)+46) ((o:Int)+74) < sliceSum hist ((o:Int)+74) ((o:Int)+102) then 1 else 0)) * 2) + (if sliceSum hist ((o:Int)+18) ((o:Int)+46) < sliceSum hist ((o:Int)+46) ((o:Int)+74) then 1 else 0)) * 2) (by omega)]
  have hmain : colorLoop hist (o:Int) 28 ((256 - ((28/2:Nat):Int) + (o:Int) - (o:Int)).toNat)
      (256 - ((28/2:Nat):Int) + (o:Int)) (sliceSum hist (256 - ((28/2:Nat):Int) + (o:Int)) ((o:Int) + 256)) (ret * 2)
      = ((((((((((((((((((((ret * 2) + (if sliceSum hist ((o:Int)+242) ((o:Int)+270) < sliceSum hist ((o:Int)+242) ((o:Int)+256) then 1 else 0)) * 2) + (if sliceSum hist ((o:Int)+214) ((o:Int)+242) < sliceSum hist ((o:Int)+242) ((o:Int)+270) then 1 else 0)) * 2) + (if sliceSum hist ((o:Int)+186) ((o:Int)+214) < sliceSum hist ((o:Int)+214) ((o:Int)+242) then 1 else 0)) * 2) + (if sliceSum hist ((o:Int)+158) ((o:Int)+186) < sliceSum hist ((o:Int)+186) ((o:Int)+214) then 1 else 0)) * 2) + (if sliceSum hist ((o:Int)+130) ((o:Int)+158) < sliceSum hist ((o:Int)+158) ((o:Int)+186) then 1 else 0)) * 2) + (if sliceSum hist ((o:Int)+102) ((o:Int)+130) < sliceSum hist ((o:Int)+130) ((o:Int)+158) then 1 else 0)) * 2) + (if sliceSum hist ((o:Int)+74) ((o:Int)+102) < sliceSum hist ((o:Int)+102) ((o:Int)+130) then 1 else 0)) * 2) + (if sliceSum hist ((o:Int)+46) ((o:Int)+74) < sliceSum hist ((o:Int)+74) ((o:Int)+102) then 1 else 0)) * 2) + (if sliceSum hist ((o:Int)+18) ((o:Int)+46) < sliceSum hist ((o:Int)+46) ((o:Int)+74) then 1 else 0)) * 2), (o:Int) - 10, (sliceSum hist ((o:Int)+18) ((o:Int)+46))) := by
    have harg : (256 - ((28/2:Nat):Int) + (o:Int)) = (o:Int) + 242 := by omega
    have hfuel : ((256 - ((28/2:Nat):Int) + (o:Int) - (o:Int)).toNat) = 242 := by omega
    rw [harg] at hfuel ⊢
    rw [hfuel]
    rw [e1, e2, e3, e4, e5, e6, e7, e8, e9, e10]
  unfold colorChannel
  simp only []
  rw [hmain]
  simp only [chanVal, chanSums, descBits, bitsFold, List.foldl, gt_iff_lt]
  have hidx : (o:Int) - 10 + ((28:Nat):Int) = (o:Int) + 18 := by push_cast; ring
  rw [hidx]
  ring


theorem descBits_le_one (l : List Nat) : ∀ b ∈ descBits l, b ≤ 1 := by
  induction l with
  | nil => simp [descBits]
  | cons a rest ih =>
    cases rest with
    | nil => simp [descBits]
    | cons c rest2 =>
      intro x hx
      simp only [descBits, List.mem_cons] at hx
      rcases hx with h | h
      · subst h
        split <;> norm_num
      · exact ih x h

theorem bitsFold_lt (bits : List Nat) (acc : Nat) (h : ∀ b ∈ bits, b ≤ 1) :
    bitsFold bits acc < (acc + 1) * 2 ^ bits.length := by
  induction bits generalizing acc with
  | nil => simp [bitsFold]
  | cons b bs ih =>
    have hb : b ≤ 1 := h b (by simp)
    have h2 := ih (acc * 2 + b) (fun x hx => h x (by simp [hx]))
    have h1 : bitsFold (b :: bs) acc = bitsFold bs (acc * 2 + b) := rfl
    rw [h1]
    calc bitsFold bs (acc * 2 + b) < (acc * 2 + b + 1) * 2 ^ bs.length := h2
    _ ≤ ((acc + 1) * 2) * 2 ^ bs.length := by
        have hle : acc * 2 + b + 1 ≤ (acc + 1) * 2 := by omega
        exact Nat.mul_le_mul_right _ hle
    _ = (acc + 1) * 2 ^ (b :: bs).length := by
        simp [List.length_cons, pow_succ]
        ring

theorem chanVal_lt (hist : List Nat) (o : Int) : chanVal hist o < 1024 := by
  have hlen : (descBits (chanSums hist o)).length = 10 := rfl
  have h := bitsFold_lt (descBits (chanSums hist o)) 0 (descBits_le_one _)
  rw [hlen] at h
  simpa [chanVal] using h

theorem colorValue_eq (hist : List Nat) (hlen : hist.length = 768) :
    colorValue hist 8
      = (chanVal hist 0 * 1024 + chanVal hist 256) * 1024 + chanVal hist 512 := by
  unfold colorValue
  rw [hlen]
  have hr : pyRange0 768 (768 / 3) = [0, 256, 512] := by decide
  rw [hr]
  have hstep : 256 / (8 + 1) = 28 := by norm_num
  rw [hstep]
  simp only [List.foldl]
  rw [colorChannel_eq hist 0, colorChannel_eq hist 256, colorChannel_eq hist 512]
  norm_num


/-- Length of a padded hex field: the minimum width, or the digit count of
the value when that exceeds the width (Python %0*x never truncates). -/
theorem hexPad_length (width n : Nat) :
    (hexPad width n).length = max width (natToHex n).length := by
  unfold hexPad
  rw [String.length_append]
  have h1 : (String.mk (List.replicate (width - (natToHex n).length) '0')).length
      = width - (natToHex n).length := by
    show (List.replicate (width - (natToHex n).length) '0').length = _
    exact List.length_replicate _ _
  rw [h1]
  omega

/-- Histogram for the C4 counterexample: a single pixel count in bin 250 of
the red channel, zero elsewhere. -/
def histC4 : List Nat := (List.replicate 768 0).set 250 1

/-- Counterexample to C4.  At bits_per_color = 8 the claim promises 8
comparison bits per channel (24 bits total) and a colour field of exactly
(8*3)/8 = 3 hex characters.  On histC4 the colour integer is 2^28 — the
walk emits 10 bits per channel, and bit 9 of the red channel (weight 2^8,
shifted by two further 10-bit channels to 2^28) is set — so the value does
not fit in 24 bits and the rendered field has 8 characters, not 3. -/
theorem C4_counterexample :
    colorValue histC4 8 = 268435456
    ∧ ¬ 268435456 < 2 ^ (8 * 3)
    ∧ (hexPad ((8 * 3) / 8) (colorValue histC4 8)).length = 8 := by
  refine ⟨by decide, by norm_num, by decide⟩

/-- C4 amended: for every image hashed in fuzzy mode with bits_per_color = 8
(the colored variant's setting; for any height), the colour component
derives TEN comparison bits per channel, not eight: step = 256 // 9 = 28 and
the walk from the brightest end inward performs nine loop comparisons plus
the final one, over the eleven slice sums listed in chanSums — whose bins
are not an equal partition of the channel: the first comparison slice
overhangs the channel boundary by 14 bins and the final bin holds the 18
darkest.  The three 10-bit channel values (each < 2^10) are concatenated
into one 30-bit integer, rendered as zero-padded hex of MINIMUM width
(8*3)/8 = 3 — the field is longer whenever the integer exceeds 0xfff — and
appended to the structural digest. -/
theorem C4_amended (fs : Filesystem) (f : String) (img : PILImage) (hgt : Nat)
    (himg : fs.image f = some img) (hlen : img.histogram.length = 768) :
    image_hash fs f 1 hgt 8
      = some (PyStr.str (structuralDigest (img.resizeL 9 hgt) 9 hgt 1
          ++ hexPad 3 (colorValue img.histogram 8)))
    ∧ colorValue img.histogram 8
      = (chanVal img.histogram 0 * 2 ^ 10 + chanVal img.histogram 256) * 2 ^ 10
          + chanVal img.histogram 512
    ∧ chanVal img.histogram 0 < 2 ^ 10
    ∧ chanVal img.histogram 256 < 2 ^ 10
    ∧ chanVal img.histogram 512 < 2 ^ 10
    ∧ (hexPad 3 (colorValue img.histogram 8)).length
        = max 3 (natToHex (colorValue img.histogram 8)).length := by
  refine ⟨?_, ?_, chanVal_lt _ _, chanVal_lt _ _, chanVal_lt _ _, hexPad_length 3 _⟩
  · unfold image_hash
    rw [himg]
    norm_num
  · have h := colorValue_eq img.histogram hlen
    simpa using h

/-- Flat test image: all-zero resized luminance and all-zero histogram. -/
def imgFlat : PILImage := ⟨fun w h => List.replicate (w * h) 0, List.replicate 768 0⟩

/-- Filesystem on which every file decodes to the flat image. -/
def fsFlat : Filesystem := ⟨fun _ => [], fun _ => some imgFlat⟩

/-- Witness for C4 amended on the flat image at the colored variant's
height 5. -/
theorem C4_witness :
    image_hash fsFlat "f" 1 5 8
      = some (PyStr.str (structuralDigest (imgFlat.resizeL 9 5) 9 5 1
          ++ hexPad 3 (colorValue imgFlat.histogram 8)))
    ∧ colorValue imgFlat.histogram 8
      = (chanVal imgFlat.histogram 0 * 2 ^ 10 + chanVal imgFlat.histogram 256) * 2 ^ 10
          + chanVal imgFlat.histogram 512
    ∧ chanVal imgFlat.histogram 0 < 2 ^ 10
    ∧ chanVal imgFlat.histogram 256 < 2 ^ 10
    ∧ chanVal imgFlat.histogram 512 < 2 ^ 10
    ∧ (hexPad 3 (colorValue imgFlat.histogram 8)).length
        = max 3 (natToHex (colorValue imgFlat.histogram 8)).length :=
  C4_amended fsFlat "f" imgFlat 5 rfl (by decide)


/-- Value of a bit list read MSB-first: the first bit carries weight
2^(number of remaining bits). -/
def specSum : List Nat → Nat
  | [] => 0
  | b :: bs => b * 2 ^ bs.length + specSum bs

theorem specSum_nil : specSum [] = 0 := rfl

theorem bitsFold_eq_specSum (bits : List Nat) (acc : Nat) :
    bitsFold bits acc = acc * 2 ^ bits.length + specSum bits := by
  induction bits generalizing acc with
  | nil => simp [bitsFold, specSum]
  | cons b bs ih =>
    have h1 : bitsFold (b :: bs) acc = bitsFold bs (acc * 2 + b) := rfl
    rw [h1, ih (acc * 2 + b)]
    simp only [specSum, List.length_cons, pow_succ]
    ring

theorem specSum_snoc (l : List Nat) (b : Nat) :
    specSum (l ++ [b]) = 2 * specSum l + b := by
  induction l with
  | nil => simp [specSum]
  | cons a rest ih =>
    simp only [List.cons_append, specSum, List.append_eq, ih, List.length_append,
      List.length_cons, List.length_nil]
    ring

theorem specSum_map_range (f : Nat → Nat) (n : Nat) :
    specSum ((List.range n).map f)
      = (((List.range n).map (fun i => f i * 2 ^ (n - 1 - i))).sum) := by
  induction n with
  | zero => simp [specSum]
  | succ n ih =>
    rw [List.range_succ, List.map_append, List.map_append]
    simp only [List.map_cons, List.map_nil]
    rw [specSum_snoc, ih]
    simp only [List.map_cons, List.map_nil, List.sum_append, List.sum_cons, List.sum_nil]
    have hlast : n + 1 - 1 - n = 0 := by omega
    rw [hlast]
    have hcongr : (List.range n).map (fun i => f i * 2 ^ (n + 1 - 1 - i))
        = (List.range n).map (fun i => 2 * (f i * 2 ^ (n - 1 - i))) := by
      apply List.map_congr_left
      intro i hi
      have hi2 : i < n := List.mem_range.mp hi
      have he : n + 1 - 1 - i = (n - 1 - i) + 1 := by omega
      rw [he, pow_succ]
      ring
    rw [hcongr]
    have hmul : ((List.range n).map (fun i => 2 * (f i * 2 ^ (n - 1 - i)))).sum
        = 2 * (((List.range n).map (fun i => f i * 2 ^ (n - 1 - i))).sum) := by
      induction List.range n with
      | nil => simp
      | cons hd tl ihl =>
        simp only [List.map_cons, List.sum_cons, ihl]
        ring
    rw [hmul]
    ring

def diffBit (shape : List Nat) (column i : Nat) : Nat :=
  if shape.getD (column + i) 0 > shape.getD (column + i + 1) 0 then 1 else 0

theorem rowValue_eq_bitsFold (shape : List Nat) (column width : Nat) :
    rowValue shape column width
      = bitsFold ((List.range (width - 1)).map (diffBit shape column)) 0 := by
  unfold rowValue bitsFold
  rw [List.foldl_map]
  rfl

theorem rowValue_eq (shape : List Nat) (column width : Nat) :
    rowValue shape column width
      = (((List.range (width - 1)).map
          (fun i => diffBit shape column i * 2 ^ (width - 2 - i))).sum) := by
  rw [rowValue_eq_bitsFold, bitsFold_eq_specSum, specSum_map_range]
  simp only [zero_mul, zero_add]
  apply congrArg List.sum
  apply List.map_congr_left
  intro i hi
  have : width - 1 - 1 - i = width - 2 - i := by omega
  rw [this]

theorem diffBit_le_one (shape : List Nat) (column i : Nat) : diffBit shape column i ≤ 1 := by
  unfold diffBit
  split <;> norm_num

theorem rowValue_lt (shape : List Nat) (column width : Nat) :
    rowValue shape column width < 2 ^ (width - 1) := by
  rw [rowValue_eq_bitsFold]
  have h := bitsFold_lt ((List.range (width - 1)).map (diffBit shape column)) 0
    (by intro b hb
        obtain ⟨i, _, rfl⟩ := List.mem_map.mp hb
        exact diffBit_le_one shape column i)
  simpa using h

theorem natToHexAux_length_le (fuel : Nat) :
    ∀ n k, n ≤ fuel → n < 16 ^ k → (natToHexAux fuel n).length ≤ k := by
  induction fuel with
  | zero => intro n k hf hk; simp [natToHexAux]
  | succ fuel ih =>
    intro n k hf hk
    unfold natToHexAux
    by_cases hn : n = 0
    · simp [hn]
    · rw [if_neg hn]
      cases k with
      | zero =>
        exfalso
        simp at hk
        omega
      | succ k =>
        have hdiv : n / 16 ≤ fuel := by
          have : n / 16 < n := Nat.div_lt_self (by omega) (by norm_num)
          omega
        have hpow : n / 16 < 16 ^ k := by
          rw [Nat.div_lt_iff_lt_mul (by norm_num)]
          calc n < 16 ^ (k + 1) := hk
          _ = 16 ^ k * 16 := by rw [pow_succ]
        have := ih (n / 16) k hdiv hpow
        simp only [List.length_append, List.length_cons, List.length_nil]
        omega

theorem natToHex_length_le (n k : Nat) (hk : 1 ≤ k) (hn : n < 16 ^ k) :
    (natToHex n).length ≤ k := by
  unfold natToHex
  by_cases h0 : n = 0
  · rw [if_pos h0]
    have h1 : ("0" : String).length = 1 := rfl
    omega
  · rw [if_neg h0]
    have h1 : (String.mk (natToHexAux n n)).length = (natToHexAux n n).length := rfl
    rw [h1]
    exact natToHexAux_length_le n n k (le_refl n) hn

theorem hexPad_length_exact (width n : Nat) (hw : 1 ≤ width) (hn : n < 16 ^ width) :
    (hexPad width n).length = width := by
  rw [hexPad_length]
  have h1 : 1 ≤ (natToHex n).length := by
    unfold natToHex
    by_cases h0 : n = 0
    · rw [if_pos h0]
      decide
    · rw [if_neg h0]
      show 1 ≤ (natToHexAux n n).length
      cases n with
      | zero => exact absurd rfl h0
      | succ m =>
        show 1 ≤ (natToHexAux (m + 1) (m + 1)).length
        unfold natToHexAux
        rw [if_neg h0]
        simp
  have h2 := natToHex_length_le n width hw hn
  omega

theorem pyRange0_mul (w h : Nat) (hw : 0 < w) :
    pyRange0 (w * h) w = (List.range h).map (fun i => i * w) := by
  unfold pyRange0
  rw [if_neg (by omega)]
  have : (w * h + w - 1) / w = h := by
    have h1 : w * h + w - 1 = w * h + (w - 1) := by omega
    rw [h1, Nat.mul_add_div hw]
    have : (w - 1) / w = 0 := Nat.div_eq_of_lt (by omega)
    omega
  rw [this]

def strJoin : List String → String
  | [] => ""
  | s :: rest => s ++ strJoin rest

theorem foldl_append_strJoin (g : Nat → String) (l : List Nat) :
    ∀ init : String, l.foldl (fun acc c => acc ++ g c) init = init ++ strJoin (l.map g) := by
  induction l with
  | nil =>
    intro init
    apply String.ext
    simp [strJoin, List.foldl]
  | cons c rest ih =>
    intro init
    simp only [List.foldl, List.map_cons, strJoin]
    rw [ih (init ++ g c)]
    apply String.ext
    simp [String.data_append]

theorem structuralDigest_eq (shape : List Nat) (w hgt bpr : Nat) (hw : 0 < w) :
    structuralDigest shape w hgt bpr
      = strJoin ((List.range hgt).map
          (fun r => hexPad (bpr * 2) (rowValue shape (r * w) w))) := by
  unfold structuralDigest
  rw [pyRange0_mul w hgt hw]
  rw [foldl_append_strJoin (fun c => hexPad (bpr * 2) (rowValue shape c w))
    ((List.range hgt).map (fun i => i * w)) ""]
  rw [List.map_map]
  have hmap : ((fun c => hexPad (bpr * 2) (rowValue shape c w)) ∘ (fun i => i * w))
      = (fun r => hexPad (bpr * 2) (rowValue shape (r * w) w)) := rfl
  rw [hmap]
  apply String.ext
  simp [String.data_append]

/-- Counterexample to C5.  The claim asserts the structural component is an
8-row grid for both fuzzy variants, which would make the colored variant's
digest 8*(1*2) + (8*3)/8 = 19 characters long; but findclash passes
height=5 for the colored variant, so on a flat image the digest is
5 row-fields of "00" plus the 3-character colour field: 13 characters. -/
theorem C5_counterexample :
    image_hash fsFlat "f" 1 5 8 = some (PyStr.str "0000000000000")
    ∧ ("0000000000000" : String).length ≠ 8 * (1 * 2) + (8 * 3) / 8 := by
  refine ⟨by decide, by decide⟩

/-- C5 amended: the structural difference-hash component is computed on a
grid of W = bytes_per_row*8 + 1 columns by H rows of single-channel
luminance where H is 8 for the plain fuzzy variant but 5 for the colored
variant (findclash passes height=5 there); it consists of H row-fields,
each the zero-padded hex rendering (width bytes_per_row*2, exact since the
value fits) of the (W-1)-bit value whose bit i — most significant first —
is 1 iff pixel i of the row is strictly brighter than pixel i+1. -/
theorem C5_amended (fs : Filesystem) (f : String) (img : PILImage)
    (himg : fs.image f = some img) :
    image_hash fs f 1 8 0
      = some (PyStr.str (structuralDigest (img.resizeL 9 8) 9 8 1))
    ∧ image_hash fs f 1 5 8
      = some (PyStr.str (structuralDigest (img.resizeL 9 5) 9 5 1
          ++ hexPad 3 (colorValue img.histogram 8)))
    ∧ (∀ shape hgt bpr, 0 < bpr →
        structuralDigest shape (bpr * 8 + 1) hgt bpr
          = strJoin ((List.range hgt).map (fun r =>
              hexPad (bpr * 2) (rowValue shape (r * (bpr * 8 + 1)) (bpr * 8 + 1)))))
    ∧ (∀ shape col bpr, rowValue shape col (bpr * 8 + 1)
        = (((List.range (bpr * 8)).map
            (fun i => diffBit shape col i * 2 ^ (bpr * 8 - 1 - i))).sum))
    ∧ (∀ shape col bpr, 0 < bpr →
        (hexPad (bpr * 2) (rowValue shape col (bpr * 8 + 1))).length = bpr * 2) := by
  refine ⟨?_, ?_, ?_, ?_, ?_⟩
  · unfold image_hash
    rw [himg]
    norm_num
  · unfold image_hash
    rw [himg]
    norm_num
  · intro shape hgt bpr hbpr
    exact structuralDigest_eq shape (bpr * 8 + 1) hgt bpr (by omega)
  · intro shape col bpr
    rw [rowValue_eq]
    have h1 : bpr * 8 + 1 - 1 = bpr * 8 := by omega
    rw [h1]
    apply congrArg List.sum
    apply List.map_congr_left
    intro i hi
    have h2 : bpr * 8 + 1 - 2 - i = bpr * 8 - 1 - i := by omega
    rw [h2]
  · intro shape col bpr hbpr
    apply hexPad_length_exact (bpr * 2) _ (by omega)
    have h1 := rowValue_lt shape col (bpr * 8 + 1)
    have h2 : (16 : Nat) ^ (bpr * 2) = 2 ^ (bpr * 8 + 1 - 1) := by
      rw [show (16 : Nat) = 2 ^ 4 from rfl, ← pow_mul]
      congr 1
      omega
    rw [h2]
    exact h1

/-- Witness for C5 amended at the flat image (the plain variant's digest is
exactly the 8-row structural rendering). -/
theorem C5_witness :
    image_hash fsFlat "f" 1 8 0
      = some (PyStr.str (structuralDigest (imgFlat.resizeL 9 8) 9 8 1)) :=
  (C5_amended fsFlat "f" imgFlat rfl).1

end FindClash
